import Mathlib

/-!
# smart-relayer, package lib: netbuffered.go

A shallow embedding of the two timeout wrappers of src/lib/netbuffered.go
(NetBuffedReadWriter and NetReadWriter) together with the parts of their
environment that the wrappers call: a net.Conn, the wall clock read by
time.Now, and the Reader and Writer of the Go standard package bufio.

Conventions.
* A time.Time is an integer number of nanoseconds counted from the zero
  time.Time, so the zero value time.Time{} is 0; a time.Duration is an integer.
* A byte slice passed to Write is the list of its bytes.  A byte slice passed
  to Read is represented by its length; the bytes stored into its front are
  returned as a list, whose length is the count n that Go returns.
* A Go error value is an Option: none is nil.
* The connection is explicit state.  It carries the clock, both deadlines,
  the state of the transport, and a chronological record of every method
  call the program has issued on it.  time.Now() is the clock of that state;
  only the connection's Read and Write let time pass.

What is assumed of a net.Conn.  SetReadDeadline and SetWriteDeadline store the
time they are given (the wrappers ignore their error results); Read and Write
may depend on the clock, on the deadline of their direction and on the
transport in any way, may return any bytes, count and error, and may take any
time, but they do not change a deadline and they return counts within
0 <= n <= len(p).
-/

namespace Lib

/-! ## Environment: time, errors, net.Conn -/

abbrev Byte := UInt8

/-- A time.Time, in nanoseconds counted from the zero time.Time. -/
abbrev Time := Int

/-- A time.Duration, in nanoseconds. -/
abbrev Duration := Int

/-- Line 9: var NoDeadline = time.Time{}. -/
def NoDeadline : Time := 0

/-- Go error values that occur in the embedding. -/
inductive GoError where
  | ErrShortWrite
  | ErrTimeout
  | EOF
  | Other (code : Nat)
  deriving DecidableEq, Repr

/-- One method call issued on the net.Conn.  A Read or Write entry records the
deadline of its direction that the connection held when the call was issued,
and the count the call returned. -/
inductive Call where
  | SetReadDeadline (t : Time)
  | SetWriteDeadline (t : Time)
  | Read (len : Nat) (deadline : Time) (n : Nat)
  | Write (p : List Byte) (deadline : Time) (n : Nat)
  deriving DecidableEq, Repr

/-- What the transport answers to one Read: the bytes delivered, the error,
its next state, and the clock when the call returns. -/
structure ReadOutcome (σ : Type) where
  data : List Byte
  err : Option GoError
  sock : σ
  now : Time

/-- What the transport answers to one Write: the count of bytes accepted, the
error, its next state, and the clock when the call returns. -/
structure WriteOutcome (σ : Type) where
  n : Nat
  err : Option GoError
  sock : σ
  now : Time

/-- The behaviour of a net.Conn implementation.  Each I/O call sees the clock,
the deadline of its direction and the transport state.  It cannot change a
deadline: only SetReadDeadline and SetWriteDeadline do that. -/
structure ConnImpl (σ : Type) where
  read : (now : Time) → (deadline : Time) → σ → (len : Nat) → ReadOutcome σ
  write : (now : Time) → (deadline : Time) → σ → (p : List Byte) → WriteOutcome σ

/-- The state of the connection and of the world around it. -/
structure Conn (σ : Type) where
  now : Time
  readDeadline : Time
  writeDeadline : Time
  sock : σ
  calls : List Call

/-- The effect of conn.SetReadDeadline(t): the connection holds t as its read
deadline.  The wrappers drop the error result of the call. -/
def Conn.SetReadDeadline {σ : Type} (c : Conn σ) (t : Time) : Conn σ :=
  { c with readDeadline := t, calls := c.calls ++ [Call.SetReadDeadline t] }

/-- The effect of conn.SetWriteDeadline(t): the connection holds t as its write
deadline.  The wrappers drop the error result of the call. -/
def Conn.SetWriteDeadline {σ : Type} (c : Conn σ) (t : Time) : Conn σ :=
  { c with writeDeadline := t, calls := c.calls ++ [Call.SetWriteDeadline t] }

/-- The result pair (n, e) of a Read together with the bytes stored: n is
data.length. -/
structure ReadResult where
  data : List Byte
  err : Option GoError
  deriving DecidableEq, Repr

/-- The result pair (n, e) of a Write. -/
structure WriteResult where
  n : Nat
  err : Option GoError
  deriving DecidableEq, Repr

/-- The count of a Read result. -/
def ReadResult.n (r : ReadResult) : Nat := r.data.length

/-- The method conn.Read(b) with len(b) = len.  The io.Reader range
0 <= n <= len(b) is part of the model: it keeps at most len bytes. -/
def Conn.Read {σ : Type} (impl : ConnImpl σ) (c : Conn σ) (len : Nat) :
    ReadResult × Conn σ :=
  let o := impl.read c.now c.readDeadline c.sock len
  let data := o.data.take len
  ({ data := data, err := o.err },
   { c with now := o.now, sock := o.sock,
            calls := c.calls ++ [Call.Read len c.readDeadline data.length] })

/-- The method conn.Write(p).  The io.Writer range 0 <= n <= len(p) is part of
the model. -/
def Conn.Write {σ : Type} (impl : ConnImpl σ) (c : Conn σ) (p : List Byte) :
    WriteResult × Conn σ :=
  let o := impl.write c.now c.writeDeadline c.sock p
  let n := min o.n p.length
  ({ n := n, err := o.err },
   { c with now := o.now, sock := o.sock,
            calls := c.calls ++ [Call.Write p c.writeDeadline n] })

/-- The bytes that the Write calls of a record put on the connection. -/
def bytesWritten : List Call → List Byte
  | [] => []
  | Call.Write p _ n :: cs => p.take n ++ bytesWritten cs
  | _ :: cs => bytesWritten cs

/-- True for a Set*Deadline entry. -/
def Call.isSetDeadline : Call → Bool
  | Call.SetReadDeadline _ => true
  | Call.SetWriteDeadline _ => true
  | _ => false

/-- True for a Read or Write entry. -/
def Call.isTransfer : Call → Bool
  | Call.Read _ _ _ => true
  | Call.Write _ _ _ => true
  | _ => false

/-! ## Standard library: bufio.Reader and bufio.Writer

bufio is not part of the repository; the definitions below follow bufio.go of
the Go standard library (Reader.Read, Writer.Available, Writer.Buffered,
Writer.Flush, Writer.Write, NewReader, NewWriter, defaultBufSize).  A buffer is
represented by its live part: b.buf[b.r:b.w] for the Reader and b.buf[0:b.n]
for the Writer. -/

/-- The constant defaultBufSize of bufio. -/
def defaultBufSize : Nat := 4096

/-- A bufio.Reader: size is len(b.buf), pending is b.buf[b.r:b.w]. -/
structure BufReader where
  size : Nat
  pending : List Byte
  err : Option GoError
  deriving DecidableEq, Repr

/-- A bufio.Writer: size is len(b.buf), buf is b.buf[0:b.n]. -/
structure BufWriter where
  size : Nat
  buf : List Byte
  err : Option GoError
  deriving DecidableEq, Repr

/-- The call bufio.NewReader(conn). -/
def NewReader : BufReader := { size := defaultBufSize, pending := [], err := none }

/-- The call bufio.NewWriter(conn). -/
def NewWriter : BufWriter := { size := defaultBufSize, buf := [], err := none }

/-- The method (*bufio.Reader).Read(p) with len(p) = len. -/
def BufReader.Read {σ : Type} (impl : ConnImpl σ) (r : BufReader) (c : Conn σ) (len : Nat) :
    ReadResult × BufReader × Conn σ :=
  if len = 0 then
    if 0 < r.pending.length then
      ({ data := [], err := none }, r, c)
    else
      ({ data := [], err := r.err }, { r with err := none }, c)
  else if r.pending.length = 0 then
    match r.err with
    | some e => ({ data := [], err := some e }, { r with err := none }, c)
    | none =>
      if r.size ≤ len then
        let x := c.Read impl len
        ({ data := x.1.data, err := x.1.err }, { r with err := none }, x.2)
      else
        let x := c.Read impl r.size
        if x.1.data.length = 0 then
          ({ data := [], err := x.1.err }, { r with pending := [], err := none }, x.2)
        else
          let n := min len x.1.data.length
          ({ data := x.1.data.take n, err := none },
           { r with pending := x.1.data.drop n, err := x.1.err }, x.2)
  else
    let n := min len r.pending.length
    ({ data := r.pending.take n, err := none }, { r with pending := r.pending.drop n }, c)

/-- The method (*bufio.Writer).Available. -/
def BufWriter.Available (w : BufWriter) : Nat := w.size - w.buf.length

/-- The method (*bufio.Writer).Buffered. -/
def BufWriter.Buffered (w : BufWriter) : Nat := w.buf.length

/-- The method (*bufio.Writer).Flush. -/
def BufWriter.Flush {σ : Type} (impl : ConnImpl σ) (w : BufWriter) (c : Conn σ) :
    Option GoError × BufWriter × Conn σ :=
  match w.err with
  | some e => (some e, w, c)
  | none =>
    if w.buf.length = 0 then
      (none, w, c)
    else
      let x := c.Write impl w.buf
      let err :=
        if x.1.n < w.buf.length ∧ x.1.err = none then some GoError.ErrShortWrite else x.1.err
      match err with
      | some e => (some e, { w with buf := w.buf.drop x.1.n, err := some e }, x.2)
      | none => (none, { w with buf := [] }, x.2)

/-- The loop and tail of (*bufio.Writer).Write(p); nn is the count so far.  The
Go loop need not end (a connection may keep accepting zero bytes without an
error), so the embedding counts iterations: none means the count ran out. -/
def BufWriter.writeLoop {σ : Type} (impl : ConnImpl σ) :
    Nat → BufWriter → Conn σ → List Byte → Nat → Option (WriteResult × BufWriter × Conn σ)
  | 0, _, _, _, _ => none
  | fuel + 1, w, c, p, nn =>
    if w.Available < p.length ∧ w.err = none then
      if w.Buffered = 0 then
        let x := c.Write impl p
        BufWriter.writeLoop impl fuel { w with err := x.1.err } x.2 (p.drop x.1.n) (nn + x.1.n)
      else
        let n := min w.Available p.length
        let y := BufWriter.Flush impl { w with buf := w.buf ++ p.take n } c
        BufWriter.writeLoop impl fuel y.2.1 y.2.2 (p.drop n) (nn + n)
    else
      match w.err with
      | some e => some ({ n := nn, err := some e }, w, c)
      | none =>
        let n := min w.Available p.length
        some ({ n := nn + n, err := none }, { w with buf := w.buf ++ p.take n }, c)

/-- The method (*bufio.Writer).Write(p). -/
def BufWriter.Write {σ : Type} (impl : ConnImpl σ) (fuel : Nat) (w : BufWriter) (c : Conn σ)
    (p : List Byte) : Option (WriteResult × BufWriter × Conn σ) :=
  BufWriter.writeLoop impl fuel w c p 0

/-! ## netbuffered.go: NetBuffedReadWriter -/

/-- Lines 12-17.  The field buf is the pair of its bufio.Reader and
bufio.Writer; conn is the connection the wrapper points to. -/
structure NetBuffedReadWriter (σ : Type) where
  conn : Conn σ
  bufReader : BufReader
  bufWriter : BufWriter
  readTimeout : Duration
  writeTimeout : Duration

/-- Lines 19-27. -/
def NewNetReadWriter {σ : Type} (conn : Conn σ) (readTimeout writeTimeout : Duration) :
    NetBuffedReadWriter σ :=
  { conn := conn, readTimeout := readTimeout, writeTimeout := writeTimeout,
    bufReader := NewReader, bufWriter := NewWriter }

/-- The call nb.buf.Read(b) on the wrapper state. -/
def NetBuffedReadWriter.bufRead {σ : Type} (impl : ConnImpl σ) (nb : NetBuffedReadWriter σ)
    (len : Nat) : ReadResult × NetBuffedReadWriter σ :=
  let x := nb.bufReader.Read impl nb.conn len
  (x.1, { nb with bufReader := x.2.1, conn := x.2.2 })

/-- The call nb.buf.Flush() on the wrapper state. -/
def NetBuffedReadWriter.bufFlush {σ : Type} (impl : ConnImpl σ) (nb : NetBuffedReadWriter σ) :
    Option GoError × NetBuffedReadWriter σ :=
  let x := nb.bufWriter.Flush impl nb.conn
  (x.1, { nb with bufWriter := x.2.1, conn := x.2.2 })

/-- Lines 30-41. -/
def NetBuffedReadWriter.Read {σ : Type} (impl : ConnImpl σ) (nb : NetBuffedReadWriter σ)
    (len : Nat) : ReadResult × NetBuffedReadWriter σ :=
  if nb.readTimeout = 0 then
    nb.bufRead impl len
  else
    let nb1 := { nb with conn := nb.conn.SetReadDeadline (nb.conn.now + nb.readTimeout) }
    let x := nb1.bufRead impl len
    if x.1.err = none then
      (x.1, { x.2 with conn := x.2.conn.SetReadDeadline NoDeadline })
    else
      x

/-- Lines 44-46. -/
def NetBuffedReadWriter.Write {σ : Type} (impl : ConnImpl σ) (fuel : Nat)
    (nb : NetBuffedReadWriter σ) (b : List Byte) : Option (WriteResult × NetBuffedReadWriter σ) :=
  (nb.bufWriter.Write impl fuel nb.conn b).map
    fun x => (x.1, { nb with bufWriter := x.2.1, conn := x.2.2 })

/-- Lines 48-59. -/
def NetBuffedReadWriter.Flush {σ : Type} (impl : ConnImpl σ) (nb : NetBuffedReadWriter σ) :
    Option GoError × NetBuffedReadWriter σ :=
  if nb.writeTimeout = 0 then
    nb.bufFlush impl
  else
    let nb1 := { nb with conn := nb.conn.SetWriteDeadline (nb.conn.now + nb.writeTimeout) }
    let x := nb1.bufFlush impl
    if x.1 = none then
      (x.1, { x.2 with conn := x.2.conn.SetWriteDeadline NoDeadline })
    else
      x

/-! ## netbuffered.go: NetReadWriter -/

/-- Lines 62-66. -/
structure NetReadWriter (σ : Type) where
  conn : Conn σ
  readTimeout : Duration
  writeTimeout : Duration

/-- Lines 69-76. -/
def NewSingleReadWriter {σ : Type} (conn : Conn σ) (readTimeout writeTimeout : Duration) :
    NetReadWriter σ :=
  { conn := conn, readTimeout := readTimeout, writeTimeout := writeTimeout }

/-- Lines 79-90. -/
def NetReadWriter.Read {σ : Type} (impl : ConnImpl σ) (rw : NetReadWriter σ) (len : Nat) :
    ReadResult × NetReadWriter σ :=
  if rw.readTimeout = 0 then
    let x := rw.conn.Read impl len
    (x.1, { rw with conn := x.2 })
  else
    let c1 := rw.conn.SetReadDeadline (rw.conn.now + rw.readTimeout)
    let x := c1.Read impl len
    if x.1.err = none then
      (x.1, { rw with conn := x.2.SetReadDeadline NoDeadline })
    else
      (x.1, { rw with conn := x.2 })

/-- Lines 93-104. -/
def NetReadWriter.Write {σ : Type} (impl : ConnImpl σ) (rw : NetReadWriter σ) (b : List Byte) :
    WriteResult × NetReadWriter σ :=
  if rw.writeTimeout = 0 then
    let x := rw.conn.Write impl b
    (x.1, { rw with conn := x.2 })
  else
    let c1 := rw.conn.SetWriteDeadline (rw.conn.now + rw.writeTimeout)
    let x := c1.Write impl b
    if x.1.err = none then
      (x.1, { rw with conn := x.2.SetWriteDeadline NoDeadline })
    else
      (x.1, { rw with conn := x.2 })

/-- Lines 107-110. -/
def NetReadWriter.Flush {σ : Type} (rw : NetReadWriter σ) : Option GoError × NetReadWriter σ :=
  (none, rw)

/-! ## Test doubles and environment predicates -/

/-- A fake connection whose every Read and Write answers with the error held
in its state: with none a Read delivers the single byte 7 and a Write accepts
everything; with an error no byte moves.  Each call takes one nanosecond. -/
def fakeImpl : ConnImpl (Option GoError) where
  read := fun now _ s _ =>
    { data := if s = none then [7] else [], err := s, sock := s, now := now + 1 }
  write := fun now _ s p =>
    { n := if s = none then p.length else 0, err := s, sock := s, now := now + 1 }

/-- A fake connection in the given state at clock 100 with the given deadlines
and an empty call record. -/
def fakeConn (s : Option GoError) (rd wd : Time) : Conn (Option GoError) :=
  { now := 100, readDeadline := rd, writeDeadline := wd, sock := s, calls := [] }

/-- How many bytes a loopback Read hands over when avail bytes are queued and
the caller's buffer has room for len: any count from 1 to min avail len, picked
by the policy, and 0 when either is 0. -/
def readGrant (policy : Nat → Nat → Nat) (avail len : Nat) : Nat :=
  if min avail len = 0 then 0 else policy avail len % min avail len + 1

/-- A loopback connection: the transport state is the queue of bytes written
and not yet read.  Write appends all its bytes; Read hands over a non-empty
front part of the queue (the policy picks how much); no call fails, no call
looks at a deadline, and the clock does not move. -/
def loopback (policy : Nat → Nat → Nat) : ConnImpl (List Byte) where
  read := fun now _ q len =>
    { data := q.take (readGrant policy q.length len), err := none,
      sock := q.drop (readGrant policy q.length len), now := now }
  write := fun now _ q p => { n := p.length, err := none, sock := q ++ p, now := now }

/-- A loopback connection with an empty queue at clock 100, with the given
deadlines and an empty call record. -/
def loopConn (rd wd : Time) : Conn (List Byte) :=
  { now := 100, readDeadline := rd, writeDeadline := wd, sock := [], calls := [] }

/-- A new buffered wrapper on which the bytes bs (at most 4096 of them) have
been written and not yet flushed. -/
def staged {σ : Type} (c : Conn σ) (rt wt : Duration) (bs : List Byte) :
    NetBuffedReadWriter σ :=
  { NewNetReadWriter c rt wt with bufWriter := { NewWriter with buf := bs } }

/-- Every Write of the connection accepts all the bytes and reports no error. -/
def AcceptsAll {σ : Type} (impl : ConnImpl σ) : Prop :=
  ∀ now dl s p, (impl.write now dl s p).n = p.length ∧ (impl.write now dl s p).err = none

/-- Between connection states c and d the program issued only Read and Write
calls, each under the deadline of its direction that c holds, and both
deadlines are still the ones of c. -/
def TransfersOnly {σ : Type} (c d : Conn σ) : Prop :=
  d.readDeadline = c.readDeadline ∧ d.writeDeadline = c.writeDeadline ∧
  ∃ ext, d.calls = c.calls ++ ext ∧
    ∀ e ∈ ext, (∃ k n, e = Call.Read k c.readDeadline n) ∨
               (∃ p n, e = Call.Write p c.writeDeadline n)

/-- Between connection states c and d the program issued only Write calls,
each under the write deadline that c holds, and both deadlines are still the
ones of c. -/
def WritesOnly {σ : Type} (c d : Conn σ) : Prop :=
  d.readDeadline = c.readDeadline ∧ d.writeDeadline = c.writeDeadline ∧
  ∃ ws, d.calls = c.calls ++ ws ∧ ∀ e ∈ ws, ∃ p n, e = Call.Write p c.writeDeadline n

/-- Between connection states c and d the program issued no SetReadDeadline and
no SetWriteDeadline call. -/
def NoDeadlineCall {σ : Type} (c d : Conn σ) : Prop :=
  ∃ ext, d.calls = c.calls ++ ext ∧ ∀ e ∈ ext, e.isSetDeadline = false

/-- A connection whose Write honours its deadline: a Write issued under a set
deadline that is still running when the deadline passes, and so returns after
it, returns the timeout error. -/
def HonoursWriteDeadline {σ : Type} (impl : ConnImpl σ) : Prop :=
  ∀ now dl s p, dl ≠ NoDeadline → dl < (impl.write now dl s p).now →
    (impl.write now dl s p).err = some GoError.ErrTimeout

/-- A fake connection on which a Write needs 10 nanoseconds and accepts
everything, unless a set deadline comes first: then it gives up just after the
deadline, accepts nothing and returns the timeout error.  Reads deliver
nothing. -/
def slowImpl : ConnImpl Unit where
  read := fun now _ s _ => { data := [], err := none, sock := s, now := now }
  write := fun now dl s p =>
    if dl ≠ NoDeadline ∧ dl < now + 10 then
      { n := 0, err := some GoError.ErrTimeout, sock := s, now := max now dl + 1 }
    else
      { n := p.length, err := none, sock := s, now := now + 10 }

/-- A slow connection at clock 100 with no deadline and an empty call record. -/
def slowConn : Conn Unit :=
  { now := 100, readDeadline := NoDeadline, writeDeadline := NoDeadline, sock := (), calls := [] }

/-! ## Auxiliary definitions for the statements -/

/-- The wrapper with its read deadline armed, as after line 35. -/
def NetBuffedReadWriter.armRead {σ : Type} (nb : NetBuffedReadWriter σ) : NetBuffedReadWriter σ :=
  { nb with conn := nb.conn.SetReadDeadline (nb.conn.now + nb.readTimeout) }

/-- The wrapper with its write deadline armed, as after line 53. -/
def NetBuffedReadWriter.armWrite {σ : Type} (nb : NetBuffedReadWriter σ) : NetBuffedReadWriter σ :=
  { nb with conn := nb.conn.SetWriteDeadline (nb.conn.now + nb.writeTimeout) }

/-- A payload one byte longer than the buffer of bufio.NewWriter. -/
def bigPayload : List Byte := List.replicate (defaultBufSize + 1) 0

/-- A call a client makes on a wrapper. -/
inductive Op where
  | Read (len : Nat)
  | Write (b : List Byte)
  | Flush
  deriving DecidableEq, Repr

/-- The record of one completed call: the operation, the clock when it was
made, and the error it returned. -/
structure Event where
  op : Op
  start : Time
  err : Option GoError
  deriving DecidableEq, Repr

/-- True for Read. -/
def Op.isRead : Op → Bool
  | Op.Read _ => true
  | _ => false

/-- True for Write. -/
def Op.isWrite : Op → Bool
  | Op.Write _ => true
  | _ => false

/-- True for Write and Flush. -/
def Op.isWriteOrFlush : Op → Bool
  | Op.Read _ => false
  | _ => true

/-- The most recent event whose operation satisfies p. -/
def lastIn (p : Op → Bool) (evs : List Event) : Option Event :=
  (evs.filter fun e => p e.op).getLast?

/-- One call on a buffered wrapper: the error returned and the next state; none
when the Write loop does not finish within the iteration count. -/
def NetBuffedReadWriter.call {σ : Type} (impl : ConnImpl σ) (fuel : Nat)
    (nb : NetBuffedReadWriter σ) : Op → Option (Option GoError × NetBuffedReadWriter σ)
  | Op.Read len => some ((nb.Read impl len).1.err, (nb.Read impl len).2)
  | Op.Write b => (nb.Write impl fuel b).map fun r => (r.1.err, r.2)
  | Op.Flush => some (nb.Flush impl)

/-- A sequence of calls on a buffered wrapper, continuing a history: the events
in the order they happened and the final state. -/
def NetBuffedReadWriter.runFrom {σ : Type} (impl : ConnImpl σ) (fuel : Nat) :
    List Event × NetBuffedReadWriter σ → List Op → Option (List Event × NetBuffedReadWriter σ)
  | s, [] => some s
  | s, op :: ops =>
    match s.2.call impl fuel op with
    | none => none
    | some x =>
      NetBuffedReadWriter.runFrom impl fuel
        (s.1 ++ [{ op := op, start := s.2.conn.now, err := x.1 }], x.2) ops

/-- A sequence of calls on a buffered wrapper. -/
def NetBuffedReadWriter.run {σ : Type} (impl : ConnImpl σ) (fuel : Nat)
    (nb : NetBuffedReadWriter σ) (ops : List Op) :
    Option (List Event × NetBuffedReadWriter σ) :=
  NetBuffedReadWriter.runFrom impl fuel ([], nb) ops

/-- One call on a direct wrapper: the error returned and the next state. -/
def NetReadWriter.call {σ : Type} (impl : ConnImpl σ) (rw : NetReadWriter σ) :
    Op → Option GoError × NetReadWriter σ
  | Op.Read len => ((rw.Read impl len).1.err, (rw.Read impl len).2)
  | Op.Write b => ((rw.Write impl b).1.err, (rw.Write impl b).2)
  | Op.Flush => rw.Flush

/-- A sequence of calls on a direct wrapper, continuing a history. -/
def NetReadWriter.runFrom {σ : Type} (impl : ConnImpl σ) :
    List Event × NetReadWriter σ → List Op → List Event × NetReadWriter σ
  | s, [] => s
  | s, op :: ops =>
    NetReadWriter.runFrom impl
      (s.1 ++ [{ op := op, start := s.2.conn.now, err := (s.2.call impl op).1 }],
       (s.2.call impl op).2) ops

/-- A sequence of calls on a direct wrapper. -/
def NetReadWriter.run {σ : Type} (impl : ConnImpl σ) (rw : NetReadWriter σ) (ops : List Op) :
    List Event × NetReadWriter σ :=
  NetReadWriter.runFrom impl ([], rw) ops

/-- The deadlines of connection state d are explained by the history evs: each
is NoDeadline or the armed value (clock at the call plus timeout) left by a call
of its direction that returned an error, and it is NoDeadline whenever the most
recent call of its direction returned nil.  The calls of the read direction are
the Reads; wdir says which calls count for the write direction. -/
def Explained {σ : Type} (evs : List Event) (d : Conn σ) (rt wt : Duration)
    (wdir : Op → Bool) : Prop :=
  (d.readDeadline = NoDeadline ∨
    ∃ e ∈ evs, e.op.isRead = true ∧ e.err ≠ none ∧ d.readDeadline = e.start + rt) ∧
  (d.writeDeadline = NoDeadline ∨
    ∃ e ∈ evs, wdir e.op = true ∧ e.err ≠ none ∧ d.writeDeadline = e.start + wt) ∧
  (∀ e, lastIn Op.isRead evs = some e → e.err = none → d.readDeadline = NoDeadline) ∧
  (∀ e, lastIn wdir evs = some e → e.err = none → d.writeDeadline = NoDeadline)

/-- The invariant of a buffered wrapper with its history. -/
def BufferedInv {σ : Type} (rt wt : Duration) (s : List Event × NetBuffedReadWriter σ) : Prop :=
  s.2.readTimeout = rt ∧ s.2.writeTimeout = wt ∧
  (rt = 0 → s.2.conn.readDeadline = NoDeadline) ∧
  (wt = 0 → s.2.conn.writeDeadline = NoDeadline) ∧
  (s.2.bufWriter.err = none → s.2.conn.writeDeadline = NoDeadline) ∧
  Explained s.1 s.2.conn rt wt Op.isWriteOrFlush

/-- The invariant of a direct wrapper with its history. -/
def DirectInv {σ : Type} (rt wt : Duration) (s : List Event × NetReadWriter σ) : Prop :=
  s.2.readTimeout = rt ∧ s.2.writeTimeout = wt ∧
  (rt = 0 → s.2.conn.readDeadline = NoDeadline) ∧
  (wt = 0 → s.2.conn.writeDeadline = NoDeadline) ∧
  Explained s.1 s.2.conn rt wt Op.isWrite

/-- Calling Read on a buffered wrapper, with buffers of the given lengths one
after the other, until want bytes have come back or a Read fails: the bytes
returned, in order, and the final state. -/
def NetBuffedReadWriter.readUntil {σ : Type} (impl : ConnImpl σ) :
    Nat → NetBuffedReadWriter σ → List Nat → List Byte × NetBuffedReadWriter σ
  | _, nb, [] => ([], nb)
  | want, nb, len :: lens =>
    if want = 0 then ([], nb)
    else if (nb.Read impl len).1.err = none then
      ((nb.Read impl len).1.data ++
          (NetBuffedReadWriter.readUntil impl (want - (nb.Read impl len).1.data.length)
            (nb.Read impl len).2 lens).1,
       (NetBuffedReadWriter.readUntil impl (want - (nb.Read impl len).1.data.length)
            (nb.Read impl len).2 lens).2)
    else ((nb.Read impl len).1.data, (nb.Read impl len).2)

/-- The same loop on a direct wrapper. -/
def NetReadWriter.readUntil {σ : Type} (impl : ConnImpl σ) :
    Nat → NetReadWriter σ → List Nat → List Byte × NetReadWriter σ
  | _, rw, [] => ([], rw)
  | want, rw, len :: lens =>
    if want = 0 then ([], rw)
    else if (rw.Read impl len).1.err = none then
      ((rw.Read impl len).1.data ++
          (NetReadWriter.readUntil impl (want - (rw.Read impl len).1.data.length)
            (rw.Read impl len).2 lens).1,
       (NetReadWriter.readUntil impl (want - (rw.Read impl len).1.data.length)
            (rw.Read impl len).2 lens).2)
    else ((rw.Read impl len).1.data, (rw.Read impl len).2)

/-- The io.Writer contract on the connection: a Write that accepts fewer than
len(p) bytes returns a non-nil error. -/
def WriterContract {σ : Type} (impl : ConnImpl σ) : Prop :=
  ∀ now dl s p, (impl.write now dl s p).err = none → p.length ≤ (impl.write now dl s p).n

/-! ## Frame lemmas for the connection methods -/

section Frame

variable {σ : Type} (impl : ConnImpl σ)

/-- A bufio Read leaves both deadlines alone and issues at most one call on the
connection, a Read under the read deadline the connection already holds. -/
theorem bufReader_Read_frame (r : BufReader) (c : Conn σ) (len : Nat) :
    (r.Read impl c len).2.2.readDeadline = c.readDeadline ∧
    (r.Read impl c len).2.2.writeDeadline = c.writeDeadline ∧
    ((r.Read impl c len).2.2 = c ∨
      ∃ k n, (r.Read impl c len).2.2.calls = c.calls ++ [Call.Read k c.readDeadline n]) := by
  unfold BufReader.Read
  split
  · split <;> simp
  · split
    · split
      · simp
      · split
        · exact ⟨rfl, rfl, Or.inr ⟨_, _, rfl⟩⟩
        · dsimp only
          split <;> exact ⟨rfl, rfl, Or.inr ⟨_, _, rfl⟩⟩
    · simp

/-- A bufio Flush leaves both deadlines alone and issues at most one call on the
connection, a Write of the buffered bytes under the write deadline the
connection already holds. -/
theorem bufWriter_Flush_frame (w : BufWriter) (c : Conn σ) :
    (w.Flush impl c).2.2.readDeadline = c.readDeadline ∧
    (w.Flush impl c).2.2.writeDeadline = c.writeDeadline ∧
    ((w.Flush impl c).2.2 = c ∨
      ∃ n, (w.Flush impl c).2.2.calls = c.calls ++ [Call.Write w.buf c.writeDeadline n]) := by
  unfold BufWriter.Flush
  split
  · simp
  · split
    · simp
    · dsimp only
      split <;> exact ⟨rfl, rfl, Or.inr ⟨_, rfl⟩⟩

theorem bytesWritten_append (xs ys : List Call) :
    bytesWritten (xs ++ ys) = bytesWritten xs ++ bytesWritten ys := by
  induction xs with
  | nil => rfl
  | cons x xs ih => cases x <;> simp [bytesWritten, ih]

theorem bytesWritten_SetWriteDeadline (c : Conn σ) (t : Time) :
    bytesWritten (c.SetWriteDeadline t).calls = bytesWritten c.calls := by
  simp [Conn.SetWriteDeadline, bytesWritten_append, bytesWritten]

theorem bytesWritten_Write (c : Conn σ) (p : List Byte) :
    bytesWritten (c.Write impl p).2.calls
      = bytesWritten c.calls ++ p.take (c.Write impl p).1.n := by
  simp [Conn.Write, bytesWritten_append, bytesWritten]

theorem conn_Write_acceptsAll (hacc : AcceptsAll impl) (c : Conn σ) (p : List Byte) :
    (c.Write impl p).1 = { n := p.length, err := none } := by
  simp [Conn.Write, (hacc _ _ _ _).1, (hacc _ _ _ _).2]

/-- Over a connection that accepts everything, a bufio Flush without a stored
error returns nil, empties the buffer and puts exactly the buffered bytes on the
connection. -/
theorem bufWriter_Flush_acceptsAll (hacc : AcceptsAll impl) (w : BufWriter) (c : Conn σ)
    (herr : w.err = none) :
    (w.Flush impl c).1 = none ∧ (w.Flush impl c).2.1 = { w with buf := [] } ∧
    bytesWritten (w.Flush impl c).2.2.calls = bytesWritten c.calls ++ w.buf := by
  unfold BufWriter.Flush
  rw [herr]
  by_cases hb : w.buf.length = 0
  · have hnil : w.buf = [] := List.length_eq_zero.mp hb
    rw [if_pos hb]
    refine ⟨rfl, ?_, by simp [hnil]⟩
    cases w; simp_all
  · rw [if_neg hb]
    simp only [conn_Write_acceptsAll impl hacc, lt_irrefl, false_and, if_false]
    refine ⟨trivial, by simp [herr], ?_⟩
    rw [bytesWritten_Write, conn_Write_acceptsAll impl hacc]
    simp

theorem transfersOnly_refl (c : Conn σ) : TransfersOnly c c :=
  ⟨rfl, rfl, [], by simp, by simp⟩

theorem transfersOnly_trans {c d e : Conn σ} (h₁ : TransfersOnly c d) (h₂ : TransfersOnly d e) :
    TransfersOnly c e := by
  obtain ⟨hr₁, hw₁, x₁, hc₁, hx₁⟩ := h₁
  obtain ⟨hr₂, hw₂, x₂, hc₂, hx₂⟩ := h₂
  refine ⟨hr₂.trans hr₁, hw₂.trans hw₁, x₁ ++ x₂, by rw [hc₂, hc₁, List.append_assoc], ?_⟩
  intro e he
  rcases List.mem_append.1 he with h | h
  · exact hx₁ e h
  · have := hx₂ e h
    rwa [hr₁, hw₁] at this

theorem transfersOnly_noDeadlineCall {c d : Conn σ} (h : TransfersOnly c d) :
    NoDeadlineCall c d := by
  obtain ⟨_, _, x, hc, hx⟩ := h
  refine ⟨x, hc, fun e he => ?_⟩
  rcases hx e he with ⟨k, n, rfl⟩ | ⟨p, n, rfl⟩ <;> rfl

theorem conn_Read_transfersOnly (c : Conn σ) (len : Nat) :
    TransfersOnly c (c.Read impl len).2 :=
  ⟨rfl, rfl, [_], rfl, by simp [Conn.Read]⟩

theorem conn_Write_transfersOnly (c : Conn σ) (p : List Byte) :
    TransfersOnly c (c.Write impl p).2 :=
  ⟨rfl, rfl, [_], rfl, by simp [Conn.Write]⟩

theorem bufReader_Read_transfersOnly (r : BufReader) (c : Conn σ) (len : Nat) :
    TransfersOnly c (r.Read impl c len).2.2 := by
  obtain ⟨h₁, h₂, h₃ | ⟨k, n, h₃⟩⟩ := bufReader_Read_frame impl r c len
  · rw [h₃]; exact transfersOnly_refl c
  · exact ⟨h₁, h₂, [_], h₃, by simp⟩

theorem bufWriter_Flush_transfersOnly (w : BufWriter) (c : Conn σ) :
    TransfersOnly c (w.Flush impl c).2.2 := by
  obtain ⟨h₁, h₂, h₃ | ⟨n, h₃⟩⟩ := bufWriter_Flush_frame impl w c
  · rw [h₃]; exact transfersOnly_refl c
  · exact ⟨h₁, h₂, [_], h₃, by simp⟩

theorem bufWriter_writeLoop_transfersOnly (fuel : Nat) :
    ∀ (w : BufWriter) (c : Conn σ) (p : List Byte) (nn : Nat)
      (r : WriteResult × BufWriter × Conn σ),
      BufWriter.writeLoop impl fuel w c p nn = some r → TransfersOnly c r.2.2 := by
  induction fuel with
  | zero => intro w c p nn r h; simp [BufWriter.writeLoop] at h
  | succ fuel ih =>
    intro w c p nn r h
    unfold BufWriter.writeLoop at h
    split at h
    · split at h
      · exact transfersOnly_trans (conn_Write_transfersOnly impl c p) (ih _ _ _ _ _ h)
      · exact transfersOnly_trans (bufWriter_Flush_transfersOnly impl _ c) (ih _ _ _ _ _ h)
    · split at h
      · simp only [Option.some.injEq] at h
        rw [← h]; exact transfersOnly_refl c
      · simp only [Option.some.injEq] at h
        rw [← h]; exact transfersOnly_refl c

theorem writesOnly_refl (c : Conn σ) : WritesOnly c c :=
  ⟨rfl, rfl, [], by simp, by simp⟩

theorem writesOnly_trans {c d e : Conn σ} (h₁ : WritesOnly c d) (h₂ : WritesOnly d e) :
    WritesOnly c e := by
  obtain ⟨hr₁, hw₁, x₁, hc₁, hx₁⟩ := h₁
  obtain ⟨hr₂, hw₂, x₂, hc₂, hx₂⟩ := h₂
  refine ⟨hr₂.trans hr₁, hw₂.trans hw₁, x₁ ++ x₂, by rw [hc₂, hc₁, List.append_assoc], ?_⟩
  intro e he
  rcases List.mem_append.1 he with h | h
  · exact hx₁ e h
  · have := hx₂ e h
    rwa [hw₁] at this

theorem conn_Write_writesOnly (c : Conn σ) (p : List Byte) :
    WritesOnly c (c.Write impl p).2 :=
  ⟨rfl, rfl, [_], rfl, by simp [Conn.Write]⟩

theorem bufWriter_Flush_writesOnly (w : BufWriter) (c : Conn σ) :
    WritesOnly c (w.Flush impl c).2.2 := by
  obtain ⟨h₁, h₂, h₃ | ⟨n, h₃⟩⟩ := bufWriter_Flush_frame impl w c
  · rw [h₃]; exact writesOnly_refl c
  · exact ⟨h₁, h₂, [_], h₃, by simp⟩

/-- A bufio Write that returns has issued only Write calls on the connection,
each under the write deadline the connection held at the start, and has set no
deadline. -/
theorem bufWriter_writeLoop_writesOnly (fuel : Nat) :
    ∀ (w : BufWriter) (c : Conn σ) (p : List Byte) (nn : Nat)
      (r : WriteResult × BufWriter × Conn σ),
      BufWriter.writeLoop impl fuel w c p nn = some r → WritesOnly c r.2.2 := by
  induction fuel with
  | zero => intro w c p nn r h; simp [BufWriter.writeLoop] at h
  | succ fuel ih =>
    intro w c p nn r h
    unfold BufWriter.writeLoop at h
    split at h
    · split at h
      · exact writesOnly_trans (conn_Write_writesOnly impl c p) (ih _ _ _ _ _ h)
      · exact writesOnly_trans (bufWriter_Flush_writesOnly impl _ c) (ih _ _ _ _ _ h)
    · split at h
      · simp only [Option.some.injEq] at h
        rw [← h]; exact writesOnly_refl c
      · simp only [Option.some.injEq] at h
        rw [← h]; exact writesOnly_refl c

end Frame

/-! ## The direct wrapper -/

section Direct

variable {σ : Type} (impl : ConnImpl σ)

/-- C9. NetReadWriter.Flush returns a nil error and leaves the wrapper and its
connection exactly as they were: the call record (so no byte read or written),
the transport state, the clock and both deadlines are unchanged, whatever the
timeouts and the state of the connection. -/
theorem direct_flush_noop (rw : NetReadWriter σ) :
    rw.Flush.1 = none ∧ rw.Flush.2 = rw ∧ rw.Flush.2.conn.calls = rw.conn.calls ∧
      rw.Flush.2.conn.sock = rw.conn.sock ∧
      rw.Flush.2.conn.readDeadline = rw.conn.readDeadline ∧
      rw.Flush.2.conn.writeDeadline = rw.conn.writeDeadline :=
  ⟨rfl, rfl, rfl, rfl, rfl, rfl⟩

theorem direct_Read_zero (rw : NetReadWriter σ) (len : Nat) (h : rw.readTimeout = 0) :
    rw.Read impl len = ((rw.conn.Read impl len).1, { rw with conn := (rw.conn.Read impl len).2 }) := by
  simp [NetReadWriter.Read, h]

theorem direct_Read_ok (rw : NetReadWriter σ) (len : Nat) (h : rw.readTimeout ≠ 0)
    (he : ((rw.conn.SetReadDeadline (rw.conn.now + rw.readTimeout)).Read impl len).1.err = none) :
    rw.Read impl len =
      (((rw.conn.SetReadDeadline (rw.conn.now + rw.readTimeout)).Read impl len).1,
       { rw with conn := ((rw.conn.SetReadDeadline (rw.conn.now + rw.readTimeout)).Read
                            impl len).2.SetReadDeadline NoDeadline }) := by
  simp [NetReadWriter.Read, h, he]

theorem direct_Read_err (rw : NetReadWriter σ) (len : Nat) (h : rw.readTimeout ≠ 0)
    (he : ((rw.conn.SetReadDeadline (rw.conn.now + rw.readTimeout)).Read impl len).1.err ≠ none) :
    rw.Read impl len =
      (((rw.conn.SetReadDeadline (rw.conn.now + rw.readTimeout)).Read impl len).1,
       { rw with conn := ((rw.conn.SetReadDeadline (rw.conn.now + rw.readTimeout)).Read
                            impl len).2 }) := by
  simp [NetReadWriter.Read, h, he]

theorem direct_Write_zero (rw : NetReadWriter σ) (b : List Byte) (h : rw.writeTimeout = 0) :
    rw.Write impl b = ((rw.conn.Write impl b).1, { rw with conn := (rw.conn.Write impl b).2 }) := by
  simp [NetReadWriter.Write, h]

theorem direct_Write_ok (rw : NetReadWriter σ) (b : List Byte) (h : rw.writeTimeout ≠ 0)
    (he : ((rw.conn.SetWriteDeadline (rw.conn.now + rw.writeTimeout)).Write impl b).1.err = none) :
    rw.Write impl b =
      (((rw.conn.SetWriteDeadline (rw.conn.now + rw.writeTimeout)).Write impl b).1,
       { rw with conn := ((rw.conn.SetWriteDeadline (rw.conn.now + rw.writeTimeout)).Write
                            impl b).2.SetWriteDeadline NoDeadline }) := by
  simp [NetReadWriter.Write, h, he]

theorem direct_Write_err (rw : NetReadWriter σ) (b : List Byte) (h : rw.writeTimeout ≠ 0)
    (he : ((rw.conn.SetWriteDeadline (rw.conn.now + rw.writeTimeout)).Write impl b).1.err ≠ none) :
    rw.Write impl b =
      (((rw.conn.SetWriteDeadline (rw.conn.now + rw.writeTimeout)).Write impl b).1,
       { rw with conn := ((rw.conn.SetWriteDeadline (rw.conn.now + rw.writeTimeout)).Write
                            impl b).2 }) := by
  simp [NetReadWriter.Write, h, he]

/-- C8. NetReadWriter is a one-to-one pass-through.  Read(b) returns exactly the
pair that the single conn.Read(b) it issues returned (issued on the connection
as it is, or after arming when the read timeout is non-zero), and the only
transfer call it adds to the record is that one Read with the same length;
likewise for Write(b) with the same bytes.  With write timeout 0 over a
connection whose Write accepts everything, Write(b) returns (len(b), nil). -/
theorem direct_pass_through (rw : NetReadWriter σ) (len : Nat) (b : List Byte) :
    ((rw.Read impl len).1 =
        ((if rw.readTimeout = 0 then rw.conn
          else rw.conn.SetReadDeadline (rw.conn.now + rw.readTimeout)).Read impl len).1 ∧
      ∃ ext, (rw.Read impl len).2.conn.calls = rw.conn.calls ++ ext ∧
        ext.filter Call.isTransfer =
          [Call.Read len (if rw.readTimeout = 0 then rw.conn.readDeadline
                          else rw.conn.now + rw.readTimeout) (rw.Read impl len).1.n]) ∧
    ((rw.Write impl b).1 =
        ((if rw.writeTimeout = 0 then rw.conn
          else rw.conn.SetWriteDeadline (rw.conn.now + rw.writeTimeout)).Write impl b).1 ∧
      ∃ ext, (rw.Write impl b).2.conn.calls = rw.conn.calls ++ ext ∧
        ext.filter Call.isTransfer =
          [Call.Write b (if rw.writeTimeout = 0 then rw.conn.writeDeadline
                         else rw.conn.now + rw.writeTimeout) (rw.Write impl b).1.n]) ∧
    (rw.writeTimeout = 0 → AcceptsAll impl →
      (rw.Write impl b).1 = { n := b.length, err := none }) := by
  refine ⟨?_, ?_, ?_⟩
  · by_cases h : rw.readTimeout = 0
    · rw [direct_Read_zero impl rw len h, if_pos h, if_pos h]
      exact ⟨rfl, [Call.Read len rw.conn.readDeadline (rw.conn.Read impl len).1.n], rfl, rfl⟩
    · rw [if_neg h, if_neg h]
      by_cases he : ((rw.conn.SetReadDeadline (rw.conn.now + rw.readTimeout)).Read impl len).1.err
          = none
      · rw [direct_Read_ok impl rw len h he]
        refine ⟨rfl, [Call.SetReadDeadline (rw.conn.now + rw.readTimeout),
          Call.Read len (rw.conn.now + rw.readTimeout)
            ((rw.conn.SetReadDeadline (rw.conn.now + rw.readTimeout)).Read impl len).1.n,
          Call.SetReadDeadline NoDeadline], ?_, rfl⟩
        simp [Conn.SetReadDeadline, Conn.Read, ReadResult.n]
      · rw [direct_Read_err impl rw len h he]
        refine ⟨rfl, [Call.SetReadDeadline (rw.conn.now + rw.readTimeout),
          Call.Read len (rw.conn.now + rw.readTimeout)
            ((rw.conn.SetReadDeadline (rw.conn.now + rw.readTimeout)).Read impl len).1.n], ?_, rfl⟩
        simp [Conn.SetReadDeadline, Conn.Read, ReadResult.n]
  · by_cases h : rw.writeTimeout = 0
    · rw [direct_Write_zero impl rw b h, if_pos h, if_pos h]
      exact ⟨rfl, [Call.Write b rw.conn.writeDeadline (rw.conn.Write impl b).1.n], rfl, rfl⟩
    · rw [if_neg h, if_neg h]
      by_cases he : ((rw.conn.SetWriteDeadline (rw.conn.now + rw.writeTimeout)).Write impl b).1.err
          = none
      · rw [direct_Write_ok impl rw b h he]
        refine ⟨rfl, [Call.SetWriteDeadline (rw.conn.now + rw.writeTimeout),
          Call.Write b (rw.conn.now + rw.writeTimeout)
            ((rw.conn.SetWriteDeadline (rw.conn.now + rw.writeTimeout)).Write impl b).1.n,
          Call.SetWriteDeadline NoDeadline], ?_, rfl⟩
        simp [Conn.SetWriteDeadline, Conn.Write]
      · rw [direct_Write_err impl rw b h he]
        refine ⟨rfl, [Call.SetWriteDeadline (rw.conn.now + rw.writeTimeout),
          Call.Write b (rw.conn.now + rw.writeTimeout)
            ((rw.conn.SetWriteDeadline (rw.conn.now + rw.writeTimeout)).Write impl b).1.n], ?_, rfl⟩
        simp [Conn.SetWriteDeadline, Conn.Write]
  · intro h hacc
    rw [direct_Write_zero impl rw b h]
    simp [Conn.Write, (hacc _ _ _ _).1, (hacc _ _ _ _).2]

/-- C8, witness: write timeout 0 over a loopback connection. -/
theorem direct_pass_through_witness :
    (NewSingleReadWriter (loopConn 0 0) 5 0).writeTimeout = 0 ∧
    AcceptsAll (loopback fun _ _ => 0) ∧
    ((NewSingleReadWriter (loopConn 0 0) 5 0).Write (loopback fun _ _ => 0) [1, 2, 3]).1
      = { n := 3, err := none } :=
  ⟨rfl, fun _ _ _ _ => ⟨rfl, rfl⟩,
   (direct_pass_through (loopback fun _ _ => 0) (NewSingleReadWriter (loopConn 0 0) 5 0) 0
      [1, 2, 3]).2.2 rfl (fun _ _ _ _ => ⟨rfl, rfl⟩)⟩

end Direct

/-! ## The buffered wrapper: unfolding lemmas -/

section Buffered

variable {σ : Type} (impl : ConnImpl σ)

theorem buffered_Read_zero (nb : NetBuffedReadWriter σ) (len : Nat)
    (h : nb.readTimeout = 0) : nb.Read impl len = nb.bufRead impl len := by
  simp [NetBuffedReadWriter.Read, h]

theorem buffered_Read_ok (nb : NetBuffedReadWriter σ) (len : Nat)
    (h : nb.readTimeout ≠ 0) (he : (nb.armRead.bufRead impl len).1.err = none) :
    nb.Read impl len =
      ((nb.armRead.bufRead impl len).1,
       { (nb.armRead.bufRead impl len).2 with
          conn := (nb.armRead.bufRead impl len).2.conn.SetReadDeadline NoDeadline }) := by
  unfold NetBuffedReadWriter.armRead at he
  simp [NetBuffedReadWriter.Read, h, he, NetBuffedReadWriter.armRead]

theorem buffered_Read_err (nb : NetBuffedReadWriter σ) (len : Nat)
    (h : nb.readTimeout ≠ 0) (he : (nb.armRead.bufRead impl len).1.err ≠ none) :
    nb.Read impl len = nb.armRead.bufRead impl len := by
  unfold NetBuffedReadWriter.armRead at he
  simp [NetBuffedReadWriter.Read, h, he, NetBuffedReadWriter.armRead]

theorem buffered_Flush_zero (nb : NetBuffedReadWriter σ)
    (h : nb.writeTimeout = 0) : nb.Flush impl = nb.bufFlush impl := by
  simp [NetBuffedReadWriter.Flush, h]

theorem buffered_Flush_ok (nb : NetBuffedReadWriter σ)
    (h : nb.writeTimeout ≠ 0) (he : (nb.armWrite.bufFlush impl).1 = none) :
    nb.Flush impl =
      ((nb.armWrite.bufFlush impl).1,
       { (nb.armWrite.bufFlush impl).2 with
          conn := (nb.armWrite.bufFlush impl).2.conn.SetWriteDeadline NoDeadline }) := by
  unfold NetBuffedReadWriter.armWrite at he
  simp [NetBuffedReadWriter.Flush, h, he, NetBuffedReadWriter.armWrite]

theorem buffered_Flush_err (nb : NetBuffedReadWriter σ)
    (h : nb.writeTimeout ≠ 0) (he : (nb.armWrite.bufFlush impl).1 ≠ none) :
    nb.Flush impl = nb.armWrite.bufFlush impl := by
  unfold NetBuffedReadWriter.armWrite at he
  simp [NetBuffedReadWriter.Flush, h, he, NetBuffedReadWriter.armWrite]

/-- The frame of nb.buf.Flush: deadlines kept, at most one Write call issued. -/
theorem buffered_bufFlush_frame (nb : NetBuffedReadWriter σ) :
    (nb.bufFlush impl).2.conn.readDeadline = nb.conn.readDeadline ∧
    (nb.bufFlush impl).2.conn.writeDeadline = nb.conn.writeDeadline ∧
    ((nb.bufFlush impl).2.conn = nb.conn ∨
      ∃ n, (nb.bufFlush impl).2.conn.calls
        = nb.conn.calls ++ [Call.Write nb.bufWriter.buf nb.conn.writeDeadline n]) :=
  bufWriter_Flush_frame impl nb.bufWriter nb.conn

theorem buffered_bufRead_transfersOnly (nb : NetBuffedReadWriter σ) (len : Nat) :
    TransfersOnly nb.conn (nb.bufRead impl len).2.conn :=
  bufReader_Read_transfersOnly impl nb.bufReader nb.conn len

theorem buffered_bufFlush_transfersOnly (nb : NetBuffedReadWriter σ) :
    TransfersOnly nb.conn (nb.bufFlush impl).2.conn :=
  bufWriter_Flush_transfersOnly impl nb.bufWriter nb.conn

/-- Write(p) when p fits into the free space of the buffer: the bytes are
appended to the buffer and the connection is not touched. -/
theorem bufWriter_writeLoop_fits (fuel : Nat) (w : BufWriter) (c : Conn σ) (p : List Byte)
    (nn : Nat) (hfit : p.length ≤ w.Available) (herr : w.err = none) :
    BufWriter.writeLoop impl (fuel + 1) w c p nn
      = some ({ n := nn + p.length, err := none }, { w with buf := w.buf ++ p }, c) := by
  unfold BufWriter.writeLoop
  rw [if_neg (by simp [not_lt.mpr hfit])]
  simp [herr, Nat.min_eq_right hfit]

/-- Write(p) when the buffer is empty and p is longer than the buffer: one
iteration hands p to the connection. -/
theorem bufWriter_writeLoop_large (fuel : Nat) (w : BufWriter) (c : Conn σ) (p : List Byte)
    (nn : Nat) (hbig : w.size < p.length) (hbuf : w.buf = []) (herr : w.err = none) :
    BufWriter.writeLoop impl (fuel + 1) w c p nn
      = BufWriter.writeLoop impl fuel { w with err := (c.Write impl p).1.err }
          (c.Write impl p).2 (p.drop (c.Write impl p).1.n) (nn + (c.Write impl p).1.n) := by
  conv_lhs => unfold BufWriter.writeLoop
  have h1 : w.Available < p.length := by simp [BufWriter.Available, hbuf, hbig]
  rw [if_pos ⟨h1, herr⟩, if_pos (by simp [BufWriter.Buffered, hbuf])]

/-- Write(p) on a new bufio.Writer with p longer than the buffer, over a
connection that accepts everything: p goes to the connection in one Write call
and the buffer stays empty. -/
theorem bufWriter_Write_new_large (hacc : AcceptsAll impl) (fuel : Nat) (c : Conn σ)
    (p : List Byte) (hbig : defaultBufSize < p.length) :
    BufWriter.Write impl (fuel + 2) NewWriter c p
      = some ({ n := p.length, err := none }, NewWriter, (c.Write impl p).2) := by
  have hw : (c.Write impl p).1 = { n := p.length, err := none } := by
    simp [Conn.Write, (hacc _ _ _ _).1, (hacc _ _ _ _).2]
  unfold BufWriter.Write
  rw [bufWriter_writeLoop_large impl (fuel + 1) NewWriter c p 0 hbig rfl rfl, hw]
  simp only [List.drop_length, Nat.zero_add]
  rw [bufWriter_writeLoop_fits impl fuel _ _ _ _ (by simp) rfl]
  simp [NewWriter]

/-- A buffered Write that returns has issued only Write calls, under the write
deadline the connection already held, and has kept both deadlines. -/
theorem buffered_Write_transfersOnly (nb : NetBuffedReadWriter σ) (fuel : Nat)
    (b : List Byte) (r : WriteResult × NetBuffedReadWriter σ)
    (h : nb.Write impl fuel b = some r) : TransfersOnly nb.conn r.2.conn := by
  unfold NetBuffedReadWriter.Write BufWriter.Write at h
  rcases hx : BufWriter.writeLoop impl fuel nb.bufWriter nb.conn b 0 with _ | x
  · rw [hx] at h; simp at h
  · rw [hx] at h
    simp only [Option.map_some', Option.some.injEq] at h
    rw [← h]
    exact bufWriter_writeLoop_transfersOnly impl fuel _ _ _ _ _ hx

/-- A buffered Write that returns has issued only Write calls, each under the
write deadline the connection already held, and no Set*Deadline call. -/
theorem buffered_Write_writesOnly (nb : NetBuffedReadWriter σ) (fuel : Nat)
    (b : List Byte) (r : WriteResult × NetBuffedReadWriter σ)
    (h : nb.Write impl fuel b = some r) : WritesOnly nb.conn r.2.conn := by
  unfold NetBuffedReadWriter.Write BufWriter.Write at h
  rcases hx : BufWriter.writeLoop impl fuel nb.bufWriter nb.conn b 0 with _ | x
  · rw [hx] at h; simp at h
  · rw [hx] at h
    simp only [Option.map_some', Option.some.injEq] at h
    rw [← h]
    exact bufWriter_writeLoop_writesOnly impl fuel _ _ _ _ _ hx

end Buffered

/-! ## Deadline contracts shared by both wrappers -/

section Contracts

variable {σ : Type} (impl : ConnImpl σ)

/-- C1. For both wrappers and every read timeout > 0, from any state and for
any buffer length: when Read returns a nil error, the last call it issued on the
connection is SetReadDeadline(NoDeadline), the read deadline the connection
holds on return is NoDeadline, and (the clock never being before the zero time)
that differs from the armed value now + readTimeout. -/
theorem read_success_resets_deadline (nb : NetBuffedReadWriter σ) (rw : NetReadWriter σ)
    (len : Nat) (hnb : 0 < nb.readTimeout) (hrw : 0 < rw.readTimeout) :
    ((nb.Read impl len).1.err = none →
      (nb.Read impl len).2.conn.readDeadline = NoDeadline ∧
      (nb.Read impl len).2.conn.calls.getLast? = some (Call.SetReadDeadline NoDeadline) ∧
      (0 ≤ nb.conn.now →
        (nb.Read impl len).2.conn.readDeadline ≠ nb.conn.now + nb.readTimeout)) ∧
    ((rw.Read impl len).1.err = none →
      (rw.Read impl len).2.conn.readDeadline = NoDeadline ∧
      (rw.Read impl len).2.conn.calls.getLast? = some (Call.SetReadDeadline NoDeadline) ∧
      (0 ≤ rw.conn.now →
        (rw.Read impl len).2.conn.readDeadline ≠ rw.conn.now + rw.readTimeout)) := by
  constructor
  · intro he
    by_cases hb : (nb.armRead.bufRead impl len).1.err = none
    · rw [buffered_Read_ok impl nb len (ne_of_gt hnb) hb]
      refine ⟨rfl, by simp [Conn.SetReadDeadline], fun hnow heq => ?_⟩
      have h1 : (0 : Int) = nb.conn.now + nb.readTimeout := heq
      have h2 : (0 : Int) ≤ nb.conn.now := hnow
      have h3 : (0 : Int) < nb.readTimeout := hnb
      omega
    · rw [buffered_Read_err impl nb len (ne_of_gt hnb) hb] at he
      exact absurd he hb
  · intro he
    by_cases hb : ((rw.conn.SetReadDeadline (rw.conn.now + rw.readTimeout)).Read impl len).1.err
        = none
    · rw [direct_Read_ok impl rw len (ne_of_gt hrw) hb]
      refine ⟨rfl, by simp [Conn.SetReadDeadline], fun hnow heq => ?_⟩
      have h1 : (0 : Int) = rw.conn.now + rw.readTimeout := heq
      have h2 : (0 : Int) ≤ rw.conn.now := hnow
      have h3 : (0 : Int) < rw.readTimeout := hrw
      omega
    · rw [direct_Read_err impl rw len (ne_of_gt hrw) hb] at he
      exact absurd he hb

/-- C1, witness: both wrappers with read timeout 50 at clock 100 over a fake
connection that answers every call without error and holds the read
deadline 7. -/
theorem read_success_resets_deadline_witness :
    (0 < (NewNetReadWriter (fakeConn none 7 0) 50 0).readTimeout ∧
     0 < (NewSingleReadWriter (fakeConn none 7 0) 50 0).readTimeout) ∧
    (((NewNetReadWriter (fakeConn none 7 0) 50 0).Read fakeImpl 3).1.err = none ∧
     ((NewSingleReadWriter (fakeConn none 7 0) 50 0).Read fakeImpl 3).1.err = none ∧
     0 ≤ (fakeConn none 7 0).now) ∧
    ((NewNetReadWriter (fakeConn none 7 0) 50 0).Read fakeImpl 3).2.conn.readDeadline
      = NoDeadline ∧
    ((NewNetReadWriter (fakeConn none 7 0) 50 0).Read fakeImpl 3).2.conn.readDeadline
      ≠ (fakeConn none 7 0).now + 50 ∧
    ((NewSingleReadWriter (fakeConn none 7 0) 50 0).Read fakeImpl 3).2.conn.readDeadline
      = NoDeadline ∧
    ((NewSingleReadWriter (fakeConn none 7 0) 50 0).Read fakeImpl 3).2.conn.readDeadline
      ≠ (fakeConn none 7 0).now + 50 :=
  ⟨⟨by decide, by decide⟩, ⟨by decide, by decide, by decide⟩,
   ((read_success_resets_deadline fakeImpl (NewNetReadWriter (fakeConn none 7 0) 50 0)
      (NewSingleReadWriter (fakeConn none 7 0) 50 0) 3 (by decide) (by decide)).1
      (by decide)).1,
   ((read_success_resets_deadline fakeImpl (NewNetReadWriter (fakeConn none 7 0) 50 0)
      (NewSingleReadWriter (fakeConn none 7 0) 50 0) 3 (by decide) (by decide)).1
      (by decide)).2.2 (by decide),
   ((read_success_resets_deadline fakeImpl (NewNetReadWriter (fakeConn none 7 0) 50 0)
      (NewSingleReadWriter (fakeConn none 7 0) 50 0) 3 (by decide) (by decide)).2
      (by decide)).1,
   ((read_success_resets_deadline fakeImpl (NewNetReadWriter (fakeConn none 7 0) 50 0)
      (NewSingleReadWriter (fakeConn none 7 0) 50 0) 3 (by decide) (by decide)).2
      (by decide)).2.2 (by decide)⟩

/-- C2. A zero timeout disables deadline handling for its direction.  With read
timeout 0, Read of either wrapper issues no Set*Deadline call and the read
deadline on return is the one held before; with write timeout 0 the same holds
of the write deadline for the buffered Flush and the direct Write.  This is so
for every behaviour of the connection, hence whatever the I/O returns. -/
theorem zero_timeout_leaves_deadline (nb : NetBuffedReadWriter σ) (rw : NetReadWriter σ)
    (len : Nat) (b : List Byte) :
    (nb.readTimeout = 0 →
      NoDeadlineCall nb.conn (nb.Read impl len).2.conn ∧
      (nb.Read impl len).2.conn.readDeadline = nb.conn.readDeadline) ∧
    (nb.writeTimeout = 0 →
      NoDeadlineCall nb.conn (nb.Flush impl).2.conn ∧
      (nb.Flush impl).2.conn.writeDeadline = nb.conn.writeDeadline) ∧
    (rw.readTimeout = 0 →
      NoDeadlineCall rw.conn (rw.Read impl len).2.conn ∧
      (rw.Read impl len).2.conn.readDeadline = rw.conn.readDeadline) ∧
    (rw.writeTimeout = 0 →
      NoDeadlineCall rw.conn (rw.Write impl b).2.conn ∧
      (rw.Write impl b).2.conn.writeDeadline = rw.conn.writeDeadline) := by
  refine ⟨fun h => ?_, fun h => ?_, fun h => ?_, fun h => ?_⟩
  · rw [buffered_Read_zero impl nb len h]
    exact ⟨transfersOnly_noDeadlineCall (buffered_bufRead_transfersOnly impl nb len),
      (buffered_bufRead_transfersOnly impl nb len).1⟩
  · rw [buffered_Flush_zero impl nb h]
    exact ⟨transfersOnly_noDeadlineCall (buffered_bufFlush_transfersOnly impl nb),
      (buffered_bufFlush_transfersOnly impl nb).2.1⟩
  · rw [direct_Read_zero impl rw len h]
    exact ⟨transfersOnly_noDeadlineCall (conn_Read_transfersOnly impl rw.conn len), rfl⟩
  · rw [direct_Write_zero impl rw b h]
    exact ⟨transfersOnly_noDeadlineCall (conn_Write_transfersOnly impl rw.conn b), rfl⟩

/-- C2, witness: both wrappers with both timeouts 0
over a fake connection holding the deadlines 7 and 9. -/
theorem zero_timeout_leaves_deadline_witness :
    ((NewNetReadWriter (fakeConn none 7 9) 0 0).readTimeout = 0 ∧
     (NewNetReadWriter (fakeConn none 7 9) 0 0).writeTimeout = 0 ∧
     (NewSingleReadWriter (fakeConn none 7 9) 0 0).readTimeout = 0 ∧
     (NewSingleReadWriter (fakeConn none 7 9) 0 0).writeTimeout = 0) ∧
    ((NewNetReadWriter (fakeConn none 7 9) 0 0).Read fakeImpl 3).2.conn.readDeadline = 7 ∧
    ((NewNetReadWriter (fakeConn none 7 9) 0 0).Flush fakeImpl).2.conn.writeDeadline = 9 ∧
    ((NewSingleReadWriter (fakeConn none 7 9) 0 0).Read fakeImpl 3).2.conn.readDeadline = 7 ∧
    ((NewSingleReadWriter (fakeConn none 7 9) 0 0).Write fakeImpl [1, 2]).2.conn.writeDeadline
      = 9 :=
  ⟨⟨rfl, rfl, rfl, rfl⟩,
   ((zero_timeout_leaves_deadline fakeImpl (NewNetReadWriter (fakeConn none 7 9) 0 0)
      (NewSingleReadWriter (fakeConn none 7 9) 0 0) 3 [1, 2]).1 rfl).2,
   ((zero_timeout_leaves_deadline fakeImpl (NewNetReadWriter (fakeConn none 7 9) 0 0)
      (NewSingleReadWriter (fakeConn none 7 9) 0 0) 3 [1, 2]).2.1 rfl).2,
   ((zero_timeout_leaves_deadline fakeImpl (NewNetReadWriter (fakeConn none 7 9) 0 0)
      (NewSingleReadWriter (fakeConn none 7 9) 0 0) 3 [1, 2]).2.2.1 rfl).2,
   ((zero_timeout_leaves_deadline fakeImpl (NewNetReadWriter (fakeConn none 7 9) 0 0)
      (NewSingleReadWriter (fakeConn none 7 9) 0 0) 3 [1, 2]).2.2.2 rfl).2⟩

/-- C4. Clear on success, leave on failure.  For a non-zero timeout, when a
deadline-wrapped operation (buffered Read, buffered Flush, direct Read, direct
Write) returns a non-nil error, its whole outcome is that of the underlying
operation (nb.buf.Read, nb.buf.Flush, conn.Read, conn.Write) run on the armed
connection, so the error is passed on unchanged and no further call was issued,
and the deadline of that direction on return is the armed value, the clock at
the call plus the timeout. -/
theorem failure_leaves_deadline_armed (nb : NetBuffedReadWriter σ) (rw : NetReadWriter σ)
    (len : Nat) (b : List Byte) :
    (nb.readTimeout ≠ 0 → (nb.Read impl len).1.err ≠ none →
      nb.Read impl len = nb.armRead.bufRead impl len ∧
      (nb.Read impl len).2.conn.readDeadline = nb.conn.now + nb.readTimeout) ∧
    (nb.writeTimeout ≠ 0 → (nb.Flush impl).1 ≠ none →
      nb.Flush impl = nb.armWrite.bufFlush impl ∧
      (nb.Flush impl).2.conn.writeDeadline = nb.conn.now + nb.writeTimeout) ∧
    (rw.readTimeout ≠ 0 → (rw.Read impl len).1.err ≠ none →
      (rw.Read impl len).1
        = ((rw.conn.SetReadDeadline (rw.conn.now + rw.readTimeout)).Read impl len).1 ∧
      (rw.Read impl len).2.conn
        = ((rw.conn.SetReadDeadline (rw.conn.now + rw.readTimeout)).Read impl len).2 ∧
      (rw.Read impl len).2.conn.readDeadline = rw.conn.now + rw.readTimeout) ∧
    (rw.writeTimeout ≠ 0 → (rw.Write impl b).1.err ≠ none →
      (rw.Write impl b).1
        = ((rw.conn.SetWriteDeadline (rw.conn.now + rw.writeTimeout)).Write impl b).1 ∧
      (rw.Write impl b).2.conn
        = ((rw.conn.SetWriteDeadline (rw.conn.now + rw.writeTimeout)).Write impl b).2 ∧
      (rw.Write impl b).2.conn.writeDeadline = rw.conn.now + rw.writeTimeout) := by
  refine ⟨fun h he => ?_, fun h he => ?_, fun h he => ?_, fun h he => ?_⟩
  · by_cases hb : (nb.armRead.bufRead impl len).1.err = none
    · rw [buffered_Read_ok impl nb len h hb] at he
      exact absurd hb he
    · rw [buffered_Read_err impl nb len h hb]
      exact ⟨rfl, (buffered_bufRead_transfersOnly impl nb.armRead len).1⟩
  · by_cases hb : (nb.armWrite.bufFlush impl).1 = none
    · rw [buffered_Flush_ok impl nb h hb] at he
      exact absurd hb he
    · rw [buffered_Flush_err impl nb h hb]
      exact ⟨rfl, (buffered_bufFlush_transfersOnly impl nb.armWrite).2.1⟩
  · by_cases hb : ((rw.conn.SetReadDeadline (rw.conn.now + rw.readTimeout)).Read impl len).1.err
        = none
    · rw [direct_Read_ok impl rw len h hb] at he
      exact absurd hb he
    · rw [direct_Read_err impl rw len h hb]
      exact ⟨rfl, rfl, rfl⟩
  · by_cases hb : ((rw.conn.SetWriteDeadline (rw.conn.now + rw.writeTimeout)).Write impl b).1.err
        = none
    · rw [direct_Write_ok impl rw b h hb] at he
      exact absurd hb he
    · rw [direct_Write_err impl rw b h hb]
      exact ⟨rfl, rfl, rfl⟩

/-- C4, witness: timeouts 50 and 60 at clock 100
over a fake connection that fails every call with the timeout error; the buffer
of the buffered wrapper holds two bytes to flush. -/
theorem failure_leaves_deadline_armed_witness :
    ((staged (fakeConn (some GoError.ErrTimeout) 0 0) 50 60 [1, 2]).Read fakeImpl 3).2.conn.readDeadline
      = 150 ∧
    ((staged (fakeConn (some GoError.ErrTimeout) 0 0) 50 60 [1, 2]).Flush fakeImpl).2.conn.writeDeadline
      = 160 ∧
    ((NewSingleReadWriter (fakeConn (some GoError.ErrTimeout) 0 0) 50 60).Read
        fakeImpl 3).2.conn.readDeadline = 150 ∧
    ((NewSingleReadWriter (fakeConn (some GoError.ErrTimeout) 0 0) 50 60).Write
        fakeImpl [1, 2]).2.conn.writeDeadline = 160 :=
  ⟨((failure_leaves_deadline_armed fakeImpl
      (staged (fakeConn (some GoError.ErrTimeout) 0 0) 50 60 [1, 2])
      (NewSingleReadWriter (fakeConn (some GoError.ErrTimeout) 0 0) 50 60) 3 [1, 2]).1
      (by decide) (by decide)).2,
   ((failure_leaves_deadline_armed fakeImpl
      (staged (fakeConn (some GoError.ErrTimeout) 0 0) 50 60 [1, 2])
      (NewSingleReadWriter (fakeConn (some GoError.ErrTimeout) 0 0) 50 60) 3 [1, 2]).2.1
      (by decide) (by decide)).2,
   ((failure_leaves_deadline_armed fakeImpl
      (staged (fakeConn (some GoError.ErrTimeout) 0 0) 50 60 [1, 2])
      (NewSingleReadWriter (fakeConn (some GoError.ErrTimeout) 0 0) 50 60) 3 [1, 2]).2.2.1
      (by decide) (by decide)).2.2,
   ((failure_leaves_deadline_armed fakeImpl
      (staged (fakeConn (some GoError.ErrTimeout) 0 0) 50 60 [1, 2])
      (NewSingleReadWriter (fakeConn (some GoError.ErrTimeout) 0 0) 50 60) 3 [1, 2]).2.2.2
      (by decide) (by decide)).2.2⟩

theorem bigPayload_length : bigPayload.length = defaultBufSize + 1 :=
  List.length_replicate _ _

theorem loopback_acceptsAll (policy : Nat → Nat → Nat) : AcceptsAll (loopback policy) :=
  fun _ _ _ _ => ⟨rfl, rfl⟩

end Contracts

/-! ## Buffering: what reaches the connection, and when -/

section Buffering

variable {σ : Type} (impl : ConnImpl σ)

/-- Over a connection that accepts everything, Flush of a buffered wrapper whose
bufio.Writer holds no error returns nil, empties the write buffer, and puts
exactly the buffered bytes on the connection. -/
theorem buffered_Flush_acceptsAll (hacc : AcceptsAll impl)
    (nb : NetBuffedReadWriter σ) (herr : nb.bufWriter.err = none) :
    (nb.Flush impl).1 = none ∧
    (nb.Flush impl).2.bufWriter = { nb.bufWriter with buf := [] } ∧
    bytesWritten (nb.Flush impl).2.conn.calls
      = bytesWritten nb.conn.calls ++ nb.bufWriter.buf := by
  by_cases h : nb.writeTimeout = 0
  · rw [buffered_Flush_zero impl nb h]
    exact bufWriter_Flush_acceptsAll impl hacc nb.bufWriter nb.conn herr
  · have hf := bufWriter_Flush_acceptsAll impl hacc nb.bufWriter nb.armWrite.conn herr
    have hb : (nb.armWrite.bufFlush impl).1 = none := hf.1
    rw [buffered_Flush_ok impl nb h hb]
    refine ⟨hb, hf.2.1, ?_⟩
    rw [bytesWritten_SetWriteDeadline]
    exact hf.2.2.trans (by rw [NetBuffedReadWriter.armWrite, bytesWritten_SetWriteDeadline])

/-- C5 (amended). On a new NetBuffedReadWriter over a connection whose writes
succeed, with any timeouts: Write(b) returns (len(b), nil), and after the Flush
that follows returns nil exactly the bytes of b have been put on the
connection.  When len(b) is at most 4096, the buffer size of bufio.NewWriter,
Write leaves the connection untouched, so nothing has reached it before Flush.
(A longer b is handed to the connection by Write itself.) -/
theorem buffered_write_reaches_conn_at_flush (hacc : AcceptsAll impl) (c : Conn σ)
    (rt wt : Duration) (b : List Byte) (fuel : Nat) :
    (∃ nb, (NewNetReadWriter c rt wt).Write impl (fuel + 2) b
        = some ({ n := b.length, err := none }, nb) ∧
      (nb.Flush impl).1 = none ∧
      bytesWritten (nb.Flush impl).2.conn.calls = bytesWritten c.calls ++ b) ∧
    (b.length ≤ defaultBufSize →
      ∃ nb, (NewNetReadWriter c rt wt).Write impl (fuel + 1) b
          = some ({ n := b.length, err := none }, nb) ∧
        nb.conn = c) := by
  have hfit : ∀ k, b.length ≤ defaultBufSize →
      (NewNetReadWriter c rt wt).Write impl (k + 1) b
        = some ({ n := b.length, err := none },
            { NewNetReadWriter c rt wt with bufWriter := { NewWriter with buf := b } }) := by
    intro k hb
    unfold NetBuffedReadWriter.Write BufWriter.Write
    show Option.map _ (BufWriter.writeLoop impl (k + 1) NewWriter c b 0) = _
    rw [bufWriter_writeLoop_fits impl k NewWriter c b 0 (by simpa [BufWriter.Available, NewWriter]
      using hb) rfl]
    simp [NewWriter, NewNetReadWriter]
  refine ⟨?_, fun hb => ⟨_, hfit fuel hb, rfl⟩⟩
  by_cases hb : b.length ≤ defaultBufSize
  · refine ⟨_, hfit (fuel + 1) hb, ?_⟩
    have hf := buffered_Flush_acceptsAll impl hacc
      { NewNetReadWriter c rt wt with bufWriter := { NewWriter with buf := b } } rfl
    exact ⟨hf.1, hf.2.2⟩
  · have hw : (NewNetReadWriter c rt wt).Write impl (fuel + 2) b
        = some ({ n := b.length, err := none },
            { NewNetReadWriter c rt wt with conn := (c.Write impl b).2 }) := by
      unfold NetBuffedReadWriter.Write
      show Option.map _ (BufWriter.Write impl (fuel + 2) NewWriter c b) = _
      rw [bufWriter_Write_new_large impl hacc fuel c b (not_le.mp hb)]
      simp [NewNetReadWriter]
    refine ⟨_, hw, ?_⟩
    have hf := buffered_Flush_acceptsAll impl hacc
      { NewNetReadWriter c rt wt with conn := (c.Write impl b).2 } rfl
    refine ⟨hf.1, hf.2.2.trans ?_⟩
    show bytesWritten (c.Write impl b).2.calls ++ [] = _
    rw [bytesWritten_Write, conn_Write_acceptsAll impl hacc]
    simp

/-- C5, witness: three bytes over a
loopback connection. -/
theorem buffered_write_reaches_conn_at_flush_witness :
    AcceptsAll (loopback fun _ _ => 0) ∧ [1, 2, 3].length ≤ defaultBufSize ∧
    ∃ nb, (NewNetReadWriter (loopConn 0 0) 0 5).Write (loopback fun _ _ => 0) 1 [1, 2, 3]
        = some ({ n := [1, 2, 3].length, err := none }, nb) ∧
      nb.conn = loopConn 0 0 :=
  ⟨loopback_acceptsAll _, by decide,
   (buffered_write_reaches_conn_at_flush (loopback fun _ _ => 0) (loopback_acceptsAll _)
      (loopConn 0 0) 0 5 [1, 2, 3] 0).2 (by decide)⟩

/-- C5, counterexample.  A new buffered wrapper over a loopback connection with
nothing written yet: Write of 4097 bytes returns (4097, nil), and before any
Flush all 4097 bytes have already been put on the connection. -/
theorem buffered_write_reaches_conn_before_flush :
    ((NewNetReadWriter (loopConn NoDeadline NoDeadline) 0 0).Write (loopback fun _ _ => 1) 2
        bigPayload).map (fun r => (r.1, bytesWritten r.2.conn.calls))
      = some ({ n := 4097, err := none }, bigPayload) ∧
    bigPayload.length = 4097 ∧
    bytesWritten (loopConn NoDeadline NoDeadline).calls = [] := by
  refine ⟨?_, bigPayload_length, rfl⟩
  unfold NetBuffedReadWriter.Write
  have h : BufWriter.Write (loopback fun _ _ => 1) 2 NewWriter
      (loopConn NoDeadline NoDeadline) bigPayload = _ :=
    bufWriter_Write_new_large (loopback fun _ _ => 1) (loopback_acceptsAll _) 0
      (loopConn NoDeadline NoDeadline) bigPayload
      (by rw [bigPayload_length]; exact Nat.lt_succ_self _)
  show Option.map _ (Option.map _ (BufWriter.Write _ 2 NewWriter
    (loopConn NoDeadline NoDeadline) bigPayload)) = _
  rw [h]
  simp only [Option.map_some', bytesWritten_Write, conn_Write_acceptsAll _ (loopback_acceptsAll _),
    bigPayload_length]
  simp [loopConn, bytesWritten, defaultBufSize]
  rw [bigPayload_length]
  decide

end Buffering

/-! ## The deadlines after each call -/

section After

variable {σ : Type} (impl : ConnImpl σ)

theorem buffered_Read_readDeadline (nb : NetBuffedReadWriter σ) (len : Nat) :
    (nb.Read impl len).2.conn.readDeadline =
      if nb.readTimeout = 0 then nb.conn.readDeadline
      else if (nb.Read impl len).1.err = none then NoDeadline
      else nb.conn.now + nb.readTimeout := by
  by_cases h : nb.readTimeout = 0
  · rw [if_pos h, buffered_Read_zero impl nb len h]
    exact (buffered_bufRead_transfersOnly impl nb len).1
  · rw [if_neg h]
    by_cases hb : (nb.armRead.bufRead impl len).1.err = none
    · rw [buffered_Read_ok impl nb len h hb, if_pos hb]; rfl
    · rw [buffered_Read_err impl nb len h hb, if_neg hb]
      exact (buffered_bufRead_transfersOnly impl nb.armRead len).1

theorem buffered_Read_writeDeadline (nb : NetBuffedReadWriter σ) (len : Nat) :
    (nb.Read impl len).2.conn.writeDeadline = nb.conn.writeDeadline := by
  by_cases h : nb.readTimeout = 0
  · rw [buffered_Read_zero impl nb len h]
    exact (buffered_bufRead_transfersOnly impl nb len).2.1
  · by_cases hb : (nb.armRead.bufRead impl len).1.err = none
    · rw [buffered_Read_ok impl nb len h hb]
      exact (buffered_bufRead_transfersOnly impl nb.armRead len).2.1
    · rw [buffered_Read_err impl nb len h hb]
      exact (buffered_bufRead_transfersOnly impl nb.armRead len).2.1

theorem buffered_Flush_writeDeadline (nb : NetBuffedReadWriter σ) :
    (nb.Flush impl).2.conn.writeDeadline =
      if nb.writeTimeout = 0 then nb.conn.writeDeadline
      else if (nb.Flush impl).1 = none then NoDeadline
      else nb.conn.now + nb.writeTimeout := by
  by_cases h : nb.writeTimeout = 0
  · rw [if_pos h, buffered_Flush_zero impl nb h]
    exact (buffered_bufFlush_transfersOnly impl nb).2.1
  · rw [if_neg h]
    by_cases hb : (nb.armWrite.bufFlush impl).1 = none
    · rw [buffered_Flush_ok impl nb h hb, if_pos hb]; rfl
    · rw [buffered_Flush_err impl nb h hb, if_neg hb]
      exact (buffered_bufFlush_transfersOnly impl nb.armWrite).2.1

theorem buffered_Flush_readDeadline (nb : NetBuffedReadWriter σ) :
    (nb.Flush impl).2.conn.readDeadline = nb.conn.readDeadline := by
  by_cases h : nb.writeTimeout = 0
  · rw [buffered_Flush_zero impl nb h]
    exact (buffered_bufFlush_transfersOnly impl nb).1
  · by_cases hb : (nb.armWrite.bufFlush impl).1 = none
    · rw [buffered_Flush_ok impl nb h hb]
      exact (buffered_bufFlush_transfersOnly impl nb.armWrite).1
    · rw [buffered_Flush_err impl nb h hb]
      exact (buffered_bufFlush_transfersOnly impl nb.armWrite).1

theorem direct_Read_readDeadline (rw : NetReadWriter σ) (len : Nat) :
    (rw.Read impl len).2.conn.readDeadline =
      if rw.readTimeout = 0 then rw.conn.readDeadline
      else if (rw.Read impl len).1.err = none then NoDeadline
      else rw.conn.now + rw.readTimeout := by
  by_cases h : rw.readTimeout = 0
  · rw [if_pos h, direct_Read_zero impl rw len h]; rfl
  · rw [if_neg h]
    by_cases hb : ((rw.conn.SetReadDeadline (rw.conn.now + rw.readTimeout)).Read impl len).1.err
        = none
    · rw [direct_Read_ok impl rw len h hb, if_pos hb]; rfl
    · rw [direct_Read_err impl rw len h hb, if_neg hb]; rfl

theorem direct_Read_writeDeadline (rw : NetReadWriter σ) (len : Nat) :
    (rw.Read impl len).2.conn.writeDeadline = rw.conn.writeDeadline := by
  by_cases h : rw.readTimeout = 0
  · rw [direct_Read_zero impl rw len h]; rfl
  · by_cases hb : ((rw.conn.SetReadDeadline (rw.conn.now + rw.readTimeout)).Read impl len).1.err
        = none
    · rw [direct_Read_ok impl rw len h hb]; rfl
    · rw [direct_Read_err impl rw len h hb]; rfl

theorem direct_Write_writeDeadline (rw : NetReadWriter σ) (b : List Byte) :
    (rw.Write impl b).2.conn.writeDeadline =
      if rw.writeTimeout = 0 then rw.conn.writeDeadline
      else if (rw.Write impl b).1.err = none then NoDeadline
      else rw.conn.now + rw.writeTimeout := by
  by_cases h : rw.writeTimeout = 0
  · rw [if_pos h, direct_Write_zero impl rw b h]; rfl
  · rw [if_neg h]
    by_cases hb : ((rw.conn.SetWriteDeadline (rw.conn.now + rw.writeTimeout)).Write impl b).1.err
        = none
    · rw [direct_Write_ok impl rw b h hb, if_pos hb]; rfl
    · rw [direct_Write_err impl rw b h hb, if_neg hb]; rfl

theorem direct_Write_readDeadline (rw : NetReadWriter σ) (b : List Byte) :
    (rw.Write impl b).2.conn.readDeadline = rw.conn.readDeadline := by
  by_cases h : rw.writeTimeout = 0
  · rw [direct_Write_zero impl rw b h]; rfl
  · by_cases hb : ((rw.conn.SetWriteDeadline (rw.conn.now + rw.writeTimeout)).Write impl b).1.err
        = none
    · rw [direct_Write_ok impl rw b h hb]; rfl
    · rw [direct_Write_err impl rw b h hb]; rfl

/-- C7, counterexample.  A direct wrapper with read timeout 0 over a connection
that holds the read deadline 7: Read returns a nil error, and the read deadline
on return is still 7, not NoDeadline. -/
theorem success_without_reset :
    ((NewSingleReadWriter (fakeConn none 7 0) 0 0).Read fakeImpl 3).1.err = none ∧
    ((NewSingleReadWriter (fakeConn none 7 0) 0 0).Read fakeImpl 3).2.conn.readDeadline = 7 ∧
    (7 : Time) ≠ NoDeadline := by
  decide

/-- C7 (amended). When an operation of either wrapper returns successfully, the
deadline of its direction on return is NoDeadline if the operation is
deadline-wrapped (buffered Read, buffered Flush, direct Read, direct Write) and
the timeout of that direction is non-zero; with a zero timeout, and for the
buffered Write and the direct Flush, which set no deadline, it is the deadline
the connection held before the call. -/
theorem success_deadline (nb : NetBuffedReadWriter σ) (rw : NetReadWriter σ) (len : Nat)
    (b : List Byte) (fuel : Nat) :
    ((nb.Read impl len).1.err = none →
      (nb.Read impl len).2.conn.readDeadline
        = if nb.readTimeout = 0 then nb.conn.readDeadline else NoDeadline) ∧
    ((nb.Flush impl).1 = none →
      (nb.Flush impl).2.conn.writeDeadline
        = if nb.writeTimeout = 0 then nb.conn.writeDeadline else NoDeadline) ∧
    (∀ r, nb.Write impl fuel b = some r → r.1.err = none →
      r.2.conn.writeDeadline = nb.conn.writeDeadline) ∧
    ((rw.Read impl len).1.err = none →
      (rw.Read impl len).2.conn.readDeadline
        = if rw.readTimeout = 0 then rw.conn.readDeadline else NoDeadline) ∧
    ((rw.Write impl b).1.err = none →
      (rw.Write impl b).2.conn.writeDeadline
        = if rw.writeTimeout = 0 then rw.conn.writeDeadline else NoDeadline) ∧
    (rw.Flush.1 = none → rw.Flush.2.conn.writeDeadline = rw.conn.writeDeadline) := by
  refine ⟨fun h => ?_, fun h => ?_, fun r hr _ => ?_, fun h => ?_, fun h => ?_, fun _ => rfl⟩
  · rw [buffered_Read_readDeadline, if_pos h]
  · rw [buffered_Flush_writeDeadline, if_pos h]
  · exact (buffered_Write_transfersOnly impl nb fuel b r hr).2.1
  · rw [direct_Read_readDeadline, if_pos h]
  · rw [direct_Write_writeDeadline, if_pos h]

/-- C7, witness: read timeout 0 and write timeout 60 over a fake
connection that answers every call without error and holds the deadlines 7
and 9. -/
theorem success_deadline_witness :
    ((NewNetReadWriter (fakeConn none 7 9) 0 60).Read fakeImpl 3).2.conn.readDeadline = 7 ∧
    ((NewNetReadWriter (fakeConn none 7 9) 0 60).Flush fakeImpl).2.conn.writeDeadline
      = NoDeadline ∧
    (NewNetReadWriter (fakeConn none 7 9) 0 60).Write fakeImpl 1 [1, 2]
      = some ({ n := 2, err := none }, staged (fakeConn none 7 9) 0 60 [1, 2]) ∧
    (staged (fakeConn none 7 9) 0 60 [1, 2]).conn.writeDeadline = 9 ∧
    ((NewSingleReadWriter (fakeConn none 7 9) 0 60).Read fakeImpl 3).2.conn.readDeadline = 7 ∧
    ((NewSingleReadWriter (fakeConn none 7 9) 0 60).Write fakeImpl [1, 2]).2.conn.writeDeadline
      = NoDeadline ∧
    (NewSingleReadWriter (fakeConn none 7 9) 0 60).Flush.2.conn.writeDeadline = 9 :=
  ⟨(success_deadline fakeImpl (NewNetReadWriter (fakeConn none 7 9) 0 60)
      (NewSingleReadWriter (fakeConn none 7 9) 0 60) 3 [1, 2] 1).1 (by decide),
   (success_deadline fakeImpl (NewNetReadWriter (fakeConn none 7 9) 0 60)
      (NewSingleReadWriter (fakeConn none 7 9) 0 60) 3 [1, 2] 1).2.1 (by decide),
   rfl,
   (success_deadline fakeImpl (NewNetReadWriter (fakeConn none 7 9) 0 60)
      (NewSingleReadWriter (fakeConn none 7 9) 0 60) 3 [1, 2] 1).2.2.1
      ({ n := 2, err := none }, staged (fakeConn none 7 9) 0 60 [1, 2]) rfl rfl,
   (success_deadline fakeImpl (NewNetReadWriter (fakeConn none 7 9) 0 60)
      (NewSingleReadWriter (fakeConn none 7 9) 0 60) 3 [1, 2] 1).2.2.2.1 (by decide),
   (success_deadline fakeImpl (NewNetReadWriter (fakeConn none 7 9) 0 60)
      (NewSingleReadWriter (fakeConn none 7 9) 0 60) 3 [1, 2] 1).2.2.2.2.1 (by decide),
   (success_deadline fakeImpl (NewNetReadWriter (fakeConn none 7 9) 0 60)
      (NewSingleReadWriter (fakeConn none 7 9) 0 60) 3 [1, 2] 1).2.2.2.2.2 rfl⟩

end After

/-! ## The stored error of the bufio.Writer -/

section Sticky

variable {σ : Type} (impl : ConnImpl σ)

/-- The error a bufio Flush returns is the error the Writer stores afterwards. -/
theorem bufWriter_Flush_err_stored (w : BufWriter) (c : Conn σ) :
    (w.Flush impl c).1 = (w.Flush impl c).2.1.err := by
  unfold BufWriter.Flush
  split
  · rename_i e he; simp [he]
  · rename_i he
    split
    · simp [he]
    · dsimp only
      split
      · rfl
      · simp [he]

/-- The error a bufio Write returns is the error the Writer stores afterwards. -/
theorem bufWriter_writeLoop_err_stored (fuel : Nat) :
    ∀ (w : BufWriter) (c : Conn σ) (p : List Byte) (nn : Nat)
      (r : WriteResult × BufWriter × Conn σ),
      BufWriter.writeLoop impl fuel w c p nn = some r → r.1.err = r.2.1.err := by
  induction fuel with
  | zero => intro w c p nn r h; simp [BufWriter.writeLoop] at h
  | succ fuel ih =>
    intro w c p nn r h
    unfold BufWriter.writeLoop at h
    split at h
    · split at h
      · exact ih _ _ _ _ _ h
      · exact ih _ _ _ _ _ h
    · split at h
      · rename_i e he
        simp only [Option.some.injEq] at h
        rw [← h]; exact he.symm
      · rename_i he
        simp only [Option.some.injEq] at h
        rw [← h]; exact he.symm

/-- A bufio Writer that stores an error keeps it through Write. -/
theorem bufWriter_writeLoop_sticky (fuel : Nat) (w : BufWriter) (c : Conn σ) (p : List Byte)
    (nn : Nat) (r : WriteResult × BufWriter × Conn σ)
    (h : BufWriter.writeLoop impl fuel w c p nn = some r) (hw : w.err ≠ none) :
    r.2.1.err ≠ none := by
  cases fuel with
  | zero => simp [BufWriter.writeLoop] at h
  | succ fuel =>
    unfold BufWriter.writeLoop at h
    rw [if_neg (fun hc => hw hc.2)] at h
    split at h
    · rename_i e he
      simp only [Option.some.injEq] at h
      rw [← h]; simp [he]
    · rename_i he
      exact absurd he hw

theorem buffered_Write_facts (nb : NetBuffedReadWriter σ) (fuel : Nat)
    (b : List Byte) (r : WriteResult × NetBuffedReadWriter σ)
    (h : nb.Write impl fuel b = some r) :
    r.1.err = r.2.bufWriter.err ∧ (nb.bufWriter.err ≠ none → r.2.bufWriter.err ≠ none) ∧
    r.2.readTimeout = nb.readTimeout ∧ r.2.writeTimeout = nb.writeTimeout := by
  unfold NetBuffedReadWriter.Write BufWriter.Write at h
  rcases hx : BufWriter.writeLoop impl fuel nb.bufWriter nb.conn b 0 with _ | x
  · rw [hx] at h; simp at h
  · rw [hx] at h
    simp only [Option.map_some', Option.some.injEq] at h
    rw [← h]
    exact ⟨bufWriter_writeLoop_err_stored impl fuel _ _ _ _ _ hx,
      bufWriter_writeLoop_sticky impl fuel _ _ _ _ _ hx, rfl, rfl⟩

theorem buffered_bufFlush_facts (nb : NetBuffedReadWriter σ) :
    (nb.bufFlush impl).1 = (nb.bufFlush impl).2.bufWriter.err ∧
    (nb.bufFlush impl).2.readTimeout = nb.readTimeout ∧
    (nb.bufFlush impl).2.writeTimeout = nb.writeTimeout :=
  ⟨bufWriter_Flush_err_stored impl nb.bufWriter nb.conn, rfl, rfl⟩

theorem buffered_Flush_facts (nb : NetBuffedReadWriter σ) :
    (nb.Flush impl).1 = (nb.Flush impl).2.bufWriter.err ∧
    (nb.Flush impl).2.readTimeout = nb.readTimeout ∧
    (nb.Flush impl).2.writeTimeout = nb.writeTimeout := by
  by_cases h : nb.writeTimeout = 0
  · rw [buffered_Flush_zero impl nb h]
    exact buffered_bufFlush_facts impl nb
  · by_cases hb : (nb.armWrite.bufFlush impl).1 = none
    · rw [buffered_Flush_ok impl nb h hb]
      exact buffered_bufFlush_facts impl nb.armWrite
    · rw [buffered_Flush_err impl nb h hb]
      exact buffered_bufFlush_facts impl nb.armWrite

theorem buffered_Read_facts (nb : NetBuffedReadWriter σ) (len : Nat) :
    (nb.Read impl len).2.bufWriter = nb.bufWriter ∧
    (nb.Read impl len).2.readTimeout = nb.readTimeout ∧
    (nb.Read impl len).2.writeTimeout = nb.writeTimeout := by
  by_cases h : nb.readTimeout = 0
  · rw [buffered_Read_zero impl nb len h]; exact ⟨rfl, rfl, rfl⟩
  · by_cases hb : (nb.armRead.bufRead impl len).1.err = none
    · rw [buffered_Read_ok impl nb len h hb]; exact ⟨rfl, rfl, rfl⟩
    · rw [buffered_Read_err impl nb len h hb]; exact ⟨rfl, rfl, rfl⟩

/-- The Write loop ends at once when p fits or an error is stored. -/
theorem bufWriter_writeLoop_exit (fuel : Nat) (w : BufWriter) (c : Conn σ) (p : List Byte)
    (nn : Nat) (h : ¬(w.Available < p.length ∧ w.err = none)) :
    (BufWriter.writeLoop impl (fuel + 1) w c p nn).isSome = true := by
  unfold BufWriter.writeLoop
  rw [if_neg h]
  split <;> rfl

/-- With an empty buffer the Write loop ends within two iterations on a
connection that meets the io.Writer contract. -/
theorem bufWriter_writeLoop_empty (hct : WriterContract impl) (fuel : Nat) (w : BufWriter)
    (c : Conn σ) (p : List Byte) (nn : Nat) (hbuf : w.Buffered = 0) :
    (BufWriter.writeLoop impl (fuel + 2) w c p nn).isSome = true := by
  by_cases hcond : w.Available < p.length ∧ w.err = none
  · unfold BufWriter.writeLoop
    rw [if_pos hcond, if_pos hbuf]
    apply bufWriter_writeLoop_exit
    rintro ⟨hlt, herr⟩
    have herr' : (impl.write c.now c.writeDeadline c.sock p).err = none := herr
    have hn := hct _ _ _ _ herr'
    have hlen : (p.drop (c.Write impl p).1.n).length = 0 := by
      simp only [Conn.Write, List.length_drop]
      rw [Nat.min_eq_right hn]
      exact Nat.sub_self _
    rw [hlen] at hlt
    exact absurd hlt (Nat.not_lt_zero _)
  · exact bufWriter_writeLoop_exit impl (fuel + 1) w c p nn hcond

/-- A bufio Flush that leaves no stored error leaves an empty buffer. -/
theorem bufWriter_Flush_empties (w : BufWriter) (c : Conn σ)
    (h : (w.Flush impl c).2.1.err = none) : (w.Flush impl c).2.1.Buffered = 0 := by
  unfold BufWriter.Flush at h
  split at h
  · rename_i e he
    have h' : w.err = none := h
    rw [he] at h'
    cases h'
  · rename_i he
    split at h
    · rename_i hb
      simp [BufWriter.Flush, he, hb, BufWriter.Buffered]
    · rename_i hb
      dsimp only at h
      split at h
      · simp at h
      · rename_i herr
        simp only [BufWriter.Flush, he, hb, if_false, herr, BufWriter.Buffered]
        rfl

/-- On a connection that meets the io.Writer contract the Write loop of bufio
ends within three iterations, whatever the state of the Writer. -/
theorem bufWriter_writeLoop_returns (hct : WriterContract impl) (fuel : Nat) (w : BufWriter)
    (c : Conn σ) (p : List Byte) (nn : Nat) :
    (BufWriter.writeLoop impl (fuel + 3) w c p nn).isSome = true := by
  by_cases hcond : w.Available < p.length ∧ w.err = none
  · by_cases hbuf : w.Buffered = 0
    · exact bufWriter_writeLoop_empty impl hct (fuel + 1) w c p nn hbuf
    · unfold BufWriter.writeLoop
      rw [if_pos hcond, if_neg hbuf]
      dsimp only
      by_cases he : (BufWriter.Flush impl
          { w with buf := w.buf ++ p.take (min w.Available p.length) } c).2.1.err = none
      · exact bufWriter_writeLoop_empty impl hct fuel _ _ _ _
          (bufWriter_Flush_empties impl _ c he)
      · exact bufWriter_writeLoop_exit impl (fuel + 1) _ _ _ _ (fun hc => he hc.2)
  · exact bufWriter_writeLoop_exit impl (fuel + 2) w c p nn hcond

/-- Every call on a buffered wrapper returns when the connection meets the
io.Writer contract and the Write loop may run three iterations. -/
theorem buffered_call_returns (hct : WriterContract impl) (fuel : Nat)
    (nb : NetBuffedReadWriter σ) (op : Op) :
    (nb.call impl (fuel + 3) op).isSome = true := by
  cases op with
  | Read len => rfl
  | Write b =>
    have h := bufWriter_writeLoop_returns impl hct fuel nb.bufWriter nb.conn b 0
    simp only [NetBuffedReadWriter.call, NetBuffedReadWriter.Write, BufWriter.Write,
      Option.isSome_map']
    simpa using h
  | Flush => rfl

/-- Every sequence of calls on a buffered wrapper returns under the same
conditions. -/
theorem buffered_runFrom_returns (hct : WriterContract impl) (fuel : Nat) (ops : List Op) :
    ∀ s : List Event × NetBuffedReadWriter σ,
      (NetBuffedReadWriter.runFrom impl (fuel + 3) s ops).isSome = true := by
  induction ops with
  | nil => intro s; rfl
  | cons op ops ih =>
    intro s
    unfold NetBuffedReadWriter.runFrom
    have h := buffered_call_returns impl hct fuel s.2 op
    rcases hc : s.2.call impl (fuel + 3) op with _ | x
    · rw [hc] at h; simp at h
    · exact ih _

end Sticky

/-! ## Writes and the armed deadline -/

section Armed

variable {σ : Type} (impl : ConnImpl σ)

/-- A buffered Write returns when the connection meets the io.Writer contract
and the Write loop may run three iterations. -/
theorem buffered_Write_returns (hct : WriterContract impl) (fuel : Nat)
    (nb : NetBuffedReadWriter σ) (b : List Byte) :
    (nb.Write impl (fuel + 3) b).isSome = true := by
  have h := bufWriter_writeLoop_returns impl hct fuel nb.bufWriter nb.conn b 0
  simp only [NetBuffedReadWriter.Write, BufWriter.Write, Option.isSome_map']
  exact h

/-- A bufio Flush that returns after the write deadline of a connection that
honours it returns the timeout error. -/
theorem bufWriter_Flush_late (w : BufWriter) (c : Conn σ) (hon : HonoursWriteDeadline impl)
    (hdl : c.writeDeadline ≠ NoDeadline) (hnow : c.now ≤ c.writeDeadline)
    (hlate : c.writeDeadline < (w.Flush impl c).2.2.now) :
    (w.Flush impl c).1 = some GoError.ErrTimeout := by
  unfold BufWriter.Flush at hlate ⊢
  split at hlate
  · exact absurd hlate (not_lt.mpr hnow)
  · split at hlate
    · exact absurd hlate (not_lt.mpr hnow)
    · have ht : (impl.write c.now c.writeDeadline c.sock w.buf).err = some GoError.ErrTimeout := by
        apply hon _ _ _ _ hdl
        dsimp only at hlate
        split at hlate <;> exact hlate
      rename_i hw hb
      simp [hw, hb, Conn.Write, ht]

/-- C3 (amended). For every write timeout > 0, the calls that a buffered Flush or
a direct Write issues on the connection are, in order: SetWriteDeadline with the
clock at the call plus the timeout, then the writes (at most one for Flush,
exactly one Write(b) for the direct Write), each issued while the connection
holds that armed write deadline, then possibly SetWriteDeadline(NoDeadline).
Hence on a connection that honours write deadlines (the clock being at or after
the zero time), a Flush or direct Write that returns after the armed deadline
returns the timeout error, not nil.  The Write of a buffered wrapper nbw, in any
state and with any timeouts, arms no deadline: when it returns, every call it
has issued on the connection is a Write made under the write deadline the
connection held before the call, and both deadlines are as they were; and it
does return on every connection that meets the io.Writer contract. -/
theorem write_runs_under_armed_deadline (nb : NetBuffedReadWriter σ) (rw : NetReadWriter σ)
    (nbw : NetBuffedReadWriter σ) (b : List Byte) (fuel : Nat)
    (hnb : 0 < nb.writeTimeout) (hrw : 0 < rw.writeTimeout) :
    (∃ ws tail, (nb.Flush impl).2.conn.calls
        = nb.conn.calls ++ (Call.SetWriteDeadline (nb.conn.now + nb.writeTimeout) :: ws ++ tail) ∧
      ws.length ≤ 1 ∧
      (∀ e ∈ ws, ∃ n, e = Call.Write nb.bufWriter.buf (nb.conn.now + nb.writeTimeout) n) ∧
      (∀ e ∈ tail, e = Call.SetWriteDeadline NoDeadline)) ∧
    (∃ tail, (rw.Write impl b).2.conn.calls
        = rw.conn.calls ++ ([Call.SetWriteDeadline (rw.conn.now + rw.writeTimeout),
            Call.Write b (rw.conn.now + rw.writeTimeout) (rw.Write impl b).1.n] ++ tail) ∧
      (∀ e ∈ tail, e = Call.SetWriteDeadline NoDeadline)) ∧
    (HonoursWriteDeadline impl → 0 ≤ nb.conn.now →
      nb.conn.now + nb.writeTimeout < (nb.Flush impl).2.conn.now →
      (nb.Flush impl).1 = some GoError.ErrTimeout) ∧
    (HonoursWriteDeadline impl → 0 ≤ rw.conn.now →
      rw.conn.now + rw.writeTimeout < (rw.Write impl b).2.conn.now →
      (rw.Write impl b).1.err = some GoError.ErrTimeout) ∧
    (∀ r, nbw.Write impl fuel b = some r →
      r.2.conn.readDeadline = nbw.conn.readDeadline ∧
      r.2.conn.writeDeadline = nbw.conn.writeDeadline ∧
      ∃ ws, r.2.conn.calls = nbw.conn.calls ++ ws ∧
        ∀ e ∈ ws, ∃ p n, e = Call.Write p nbw.conn.writeDeadline n) ∧
    (WriterContract impl → (nbw.Write impl (fuel + 3) b).isSome = true) := by
  have hnb0 : nb.writeTimeout ≠ 0 := ne_of_gt hnb
  have hrw0 : rw.writeTimeout ≠ 0 := ne_of_gt hrw
  have hfl : (nb.Flush impl).1 = (nb.armWrite.bufFlush impl).1 ∧
      (nb.Flush impl).2.conn.now = (nb.armWrite.bufFlush impl).2.conn.now := by
    by_cases hb : (nb.armWrite.bufFlush impl).1 = none
    · rw [buffered_Flush_ok impl nb hnb0 hb]; exact ⟨rfl, rfl⟩
    · rw [buffered_Flush_err impl nb hnb0 hb]; exact ⟨rfl, rfl⟩
  refine ⟨?_, ?_, ?_, ?_, fun r hr => buffered_Write_writesOnly impl nbw fuel b r hr,
    fun hct => buffered_Write_returns impl hct fuel nbw b⟩
  · obtain ⟨-, -, hc⟩ := buffered_bufFlush_frame impl nb.armWrite
    have hws : ∃ ws, (nb.armWrite.bufFlush impl).2.conn.calls
        = nb.conn.calls ++ (Call.SetWriteDeadline (nb.conn.now + nb.writeTimeout) :: ws) ∧
        ws.length ≤ 1 ∧
        ∀ e ∈ ws, ∃ n, e = Call.Write nb.bufWriter.buf (nb.conn.now + nb.writeTimeout) n := by
      rcases hc with hc | ⟨n, hc⟩
      · exact ⟨[], by rw [hc]; simp [NetBuffedReadWriter.armWrite, Conn.SetWriteDeadline],
          by simp, by simp⟩
      · exact ⟨[Call.Write nb.bufWriter.buf (nb.conn.now + nb.writeTimeout) n],
          by rw [hc]; simp [NetBuffedReadWriter.armWrite, Conn.SetWriteDeadline], by simp,
          by simp⟩
    obtain ⟨ws, hws, hlen, hall⟩ := hws
    by_cases hb : (nb.armWrite.bufFlush impl).1 = none
    · rw [buffered_Flush_ok impl nb hnb0 hb]
      exact ⟨ws, [Call.SetWriteDeadline NoDeadline],
        by simp [Conn.SetWriteDeadline, hws], hlen, hall, by simp⟩
    · rw [buffered_Flush_err impl nb hnb0 hb]
      exact ⟨ws, [], by simp [hws], hlen, hall, by simp⟩
  · by_cases hb : ((rw.conn.SetWriteDeadline (rw.conn.now + rw.writeTimeout)).Write impl b).1.err
        = none
    · rw [direct_Write_ok impl rw b hrw0 hb]
      exact ⟨[Call.SetWriteDeadline NoDeadline], by simp [Conn.SetWriteDeadline, Conn.Write],
        by simp⟩
    · rw [direct_Write_err impl rw b hrw0 hb]
      exact ⟨[], by simp [Conn.SetWriteDeadline, Conn.Write], by simp⟩
  · intro hon hnow hlate
    rw [hfl.1]
    rw [hfl.2] at hlate
    have h1 : (0 : Int) ≤ nb.conn.now := hnow
    have h2 : (0 : Int) < nb.writeTimeout := hnb
    refine bufWriter_Flush_late impl nb.bufWriter nb.armWrite.conn hon ?_ ?_ hlate
    · exact ne_of_gt (add_pos_of_nonneg_of_pos h1 h2)
    · exact le_add_of_nonneg_right (le_of_lt h2)
  · intro hon hnow hlate
    have h1 : (0 : Int) ≤ rw.conn.now := hnow
    have h2 : (0 : Int) < rw.writeTimeout := hrw
    have h3 : rw.conn.now + rw.writeTimeout ≠ NoDeadline :=
      ne_of_gt (add_pos_of_nonneg_of_pos h1 h2)
    by_cases hb : ((rw.conn.SetWriteDeadline (rw.conn.now + rw.writeTimeout)).Write impl b).1.err
        = none
    · rw [direct_Write_ok impl rw b hrw0 hb] at hlate ⊢
      exact hon _ _ _ _ h3 hlate
    · rw [direct_Write_err impl rw b hrw0 hb] at hlate ⊢
      exact hon _ _ _ _ h3 hlate

theorem slowImpl_honours : HonoursWriteDeadline slowImpl := by
  intro now dl s p hdl hlate
  unfold slowImpl at hlate ⊢
  dsimp only at hlate ⊢
  split
  · rfl
  · rename_i hc
    rw [if_neg hc] at hlate
    exact absurd ⟨hdl, hlate⟩ hc

theorem slowImpl_writerContract : WriterContract slowImpl := by
  intro now dl s p h
  unfold slowImpl at h ⊢
  dsimp only at h ⊢
  split
  · rename_i hc
    rw [if_pos hc] at h
    cases h
  · exact Nat.le_refl _

/-- C3, witness: write timeout 5 at clock 100 over the slow connection, whose
Write needs 10 nanoseconds; the buffered Write is that of two bytes on a new
wrapper. -/
theorem write_runs_under_armed_deadline_witness :
    (0 < (staged slowConn 0 5 [1, 2]).writeTimeout ∧
     0 < (NewSingleReadWriter slowConn 0 5).writeTimeout) ∧
    (HonoursWriteDeadline slowImpl ∧ WriterContract slowImpl) ∧
    ((staged slowConn 0 5 [1, 2]).Flush slowImpl).1 = some GoError.ErrTimeout ∧
    ((NewSingleReadWriter slowConn 0 5).Write slowImpl [1, 2]).1.err
      = some GoError.ErrTimeout ∧
    (NewNetReadWriter slowConn 0 5).Write slowImpl 1 [1, 2]
      = some ({ n := 2, err := none }, staged slowConn 0 5 [1, 2]) ∧
    (staged slowConn 0 5 [1, 2]).conn.writeDeadline
      = (NewNetReadWriter slowConn 0 5).conn.writeDeadline ∧
    ((NewNetReadWriter slowConn 0 5).Write slowImpl (1 + 3) [1, 2]).isSome = true :=
  ⟨⟨by decide, by decide⟩, ⟨slowImpl_honours, slowImpl_writerContract⟩,
   (write_runs_under_armed_deadline slowImpl (staged slowConn 0 5 [1, 2])
      (NewSingleReadWriter slowConn 0 5) (NewNetReadWriter slowConn 0 5) [1, 2] 1
      (by decide) (by decide)).2.2.1 slowImpl_honours (by decide) (by decide),
   (write_runs_under_armed_deadline slowImpl (staged slowConn 0 5 [1, 2])
      (NewSingleReadWriter slowConn 0 5) (NewNetReadWriter slowConn 0 5) [1, 2] 1
      (by decide) (by decide)).2.2.2.1 slowImpl_honours (by decide) (by decide),
   rfl,
   ((write_runs_under_armed_deadline slowImpl (staged slowConn 0 5 [1, 2])
      (NewSingleReadWriter slowConn 0 5) (NewNetReadWriter slowConn 0 5) [1, 2] 1
      (by decide) (by decide)).2.2.2.2.1
      ({ n := 2, err := none }, staged slowConn 0 5 [1, 2]) rfl).2.1,
   (write_runs_under_armed_deadline slowImpl (staged slowConn 0 5 [1, 2])
      (NewSingleReadWriter slowConn 0 5) (NewNetReadWriter slowConn 0 5) [1, 2] 1
      (by decide) (by decide)).2.2.2.2.2 slowImpl_writerContract⟩

/-- C3, counterexample.  A new buffered wrapper with write timeout 5 at clock 100
over a loopback connection holding no deadline: Write of 4097 bytes returns nil
and has issued one Write call on the connection, under the write deadline
NoDeadline and not under the armed value 100 + 5; it issued no SetWriteDeadline
call at all. -/
theorem buffered_write_runs_unarmed :
    ((NewNetReadWriter (loopConn NoDeadline NoDeadline) 0 5).Write (loopback fun _ _ => 0) 2
        bigPayload).map (fun r => (r.1.err, r.2.conn.calls))
      = some (none, [Call.Write bigPayload NoDeadline bigPayload.length]) ∧
    NoDeadline ≠ (loopConn NoDeadline NoDeadline).now + 5 := by
  constructor
  · unfold NetBuffedReadWriter.Write
    have h : BufWriter.Write (loopback fun _ _ => 0) 2 NewWriter
        (loopConn NoDeadline NoDeadline) bigPayload = _ :=
      bufWriter_Write_new_large (loopback fun _ _ => 0) (loopback_acceptsAll _) 0
        (loopConn NoDeadline NoDeadline) bigPayload
        (by rw [bigPayload_length]; exact Nat.lt_succ_self _)
    show Option.map _ (Option.map _ (BufWriter.Write _ 2 NewWriter
      (loopConn NoDeadline NoDeadline) bigPayload)) = _
    rw [h]
    simp [Conn.Write, loopback, loopConn]
  · decide

end Armed

/-! ## Sequences of calls on one wrapper -/

section Reachable

variable {σ : Type} (impl : ConnImpl σ)

theorem lastIn_snoc (p : Op → Bool) (evs : List Event) (e : Event) :
    lastIn p (evs ++ [e]) = if p e.op = true then some e else lastIn p evs := by
  unfold lastIn
  by_cases h : p e.op = true
  · simp [List.filter_append, h]
  · simp [List.filter_append, h]

/-- The deadlines stay explained when a call is added to the history, provided
the call left the deadline of the other direction alone, left its own at
NoDeadline if it returned nil, and otherwise left it at NoDeadline, at its armed
value, or as it was. -/
theorem explained_snoc {evs : List Event} {d d' : Conn σ} {rt wt : Duration}
    {wdir : Op → Bool} (h : Explained evs d rt wt wdir) (e : Event)
    (hr1 : e.op.isRead = false → d'.readDeadline = d.readDeadline)
    (hr2 : e.op.isRead = true → e.err = none → d'.readDeadline = NoDeadline)
    (hr3 : e.op.isRead = true → e.err ≠ none →
      d'.readDeadline = NoDeadline ∨ d'.readDeadline = e.start + rt ∨
        d'.readDeadline = d.readDeadline)
    (hw1 : wdir e.op = false → d'.writeDeadline = d.writeDeadline)
    (hw2 : wdir e.op = true → e.err = none → d'.writeDeadline = NoDeadline)
    (hw3 : wdir e.op = true → e.err ≠ none →
      d'.writeDeadline = NoDeadline ∨ d'.writeDeadline = e.start + wt ∨
        d'.writeDeadline = d.writeDeadline) :
    Explained (evs ++ [e]) d' rt wt wdir := by
  obtain ⟨h1, h2, h3, h4⟩ := h
  have old1 : d'.readDeadline = d.readDeadline →
      d'.readDeadline = NoDeadline ∨ ∃ x ∈ evs ++ [e], x.op.isRead = true ∧ x.err ≠ none ∧
        d'.readDeadline = x.start + rt := by
    intro heq
    rw [heq]
    rcases h1 with h1 | ⟨x, hx, hx'⟩
    · exact Or.inl h1
    · exact Or.inr ⟨x, List.mem_append_left _ hx, hx'⟩
  have old2 : d'.writeDeadline = d.writeDeadline →
      d'.writeDeadline = NoDeadline ∨ ∃ x ∈ evs ++ [e], wdir x.op = true ∧ x.err ≠ none ∧
        d'.writeDeadline = x.start + wt := by
    intro heq
    rw [heq]
    rcases h2 with h2 | ⟨x, hx, hx'⟩
    · exact Or.inl h2
    · exact Or.inr ⟨x, List.mem_append_left _ hx, hx'⟩
  refine ⟨?_, ?_, ?_, ?_⟩
  · by_cases hp : e.op.isRead = true
    · by_cases he : e.err = none
      · exact Or.inl (hr2 hp he)
      · rcases hr3 hp he with h | h | h
        · exact Or.inl h
        · exact Or.inr ⟨e, by simp, hp, he, h⟩
        · exact old1 h
    · exact old1 (hr1 (by simpa using hp))
  · by_cases hp : wdir e.op = true
    · by_cases he : e.err = none
      · exact Or.inl (hw2 hp he)
      · rcases hw3 hp he with h | h | h
        · exact Or.inl h
        · exact Or.inr ⟨e, by simp, hp, he, h⟩
        · exact old2 h
    · exact old2 (hw1 (by simpa using hp))
  · intro x hx hnil
    rw [lastIn_snoc] at hx
    by_cases hp : e.op.isRead = true
    · rw [if_pos hp] at hx
      cases hx
      exact hr2 hp hnil
    · rw [if_neg hp] at hx
      rw [hr1 (by simpa using hp)]
      exact h3 x hx hnil
  · intro x hx hnil
    rw [lastIn_snoc] at hx
    by_cases hp : wdir e.op = true
    · rw [if_pos hp] at hx
      cases hx
      exact hw2 hp hnil
    · rw [if_neg hp] at hx
      rw [hw1 (by simpa using hp)]
      exact h4 x hx hnil

theorem bufferedInv_step {rt wt : Duration} {s : List Event × NetBuffedReadWriter σ}
    (h : BufferedInv rt wt s) (fuel : Nat) (op : Op)
    (x : Option GoError × NetBuffedReadWriter σ) (hx : s.2.call impl fuel op = some x) :
    BufferedInv rt wt (s.1 ++ [{ op := op, start := s.2.conn.now, err := x.1 }], x.2) := by
  obtain ⟨hrt, hwt, hz1, hz2, hst, hex⟩ := h
  cases op with
  | Read len =>
    simp only [NetBuffedReadWriter.call, Option.some.injEq] at hx
    subst hx
    have hf := buffered_Read_facts impl s.2 len
    have hrd := buffered_Read_readDeadline impl s.2 len
    have hwd := buffered_Read_writeDeadline impl s.2 len
    refine ⟨hf.2.1.trans hrt, hf.2.2.trans hwt, ?_, ?_, ?_, ?_⟩
    · intro h0
      rw [hrd, if_pos (hrt.trans h0)]
      exact hz1 h0
    · intro h0
      show (s.2.Read impl len).2.conn.writeDeadline = NoDeadline
      rw [hwd]; exact hz2 h0
    · intro he
      show (s.2.Read impl len).2.conn.writeDeadline = NoDeadline
      rw [hwd]
      exact hst (by rw [← hf.1]; exact he)
    · refine explained_snoc hex _ (by simp [Op.isRead]) ?_ ?_ (fun _ => hwd) (by simp [Op.isWriteOrFlush])
        (by simp [Op.isWriteOrFlush])
      · intro _ he
        show (s.2.Read impl len).2.conn.readDeadline = NoDeadline
        have he' : (s.2.Read impl len).1.err = none := he
        rw [hrd, if_pos he']
        split
        · rename_i h0
          exact hz1 (hrt.symm.trans h0)
        · rfl
      · intro _ he
        show (s.2.Read impl len).2.conn.readDeadline = NoDeadline ∨
          (s.2.Read impl len).2.conn.readDeadline = s.2.conn.now + rt ∨ _
        have he' : (s.2.Read impl len).1.err ≠ none := he
        rw [hrd, if_neg he', hrt]
        by_cases h0 : rt = 0
        · rw [if_pos h0]; exact Or.inr (Or.inr rfl)
        · rw [if_neg h0]; exact Or.inr (Or.inl rfl)
  | Write b =>
    simp only [NetBuffedReadWriter.call] at hx
    rcases hw : s.2.Write impl fuel b with _ | r
    · rw [hw] at hx; simp at hx
    · rw [hw] at hx
      simp only [Option.map_some', Option.some.injEq] at hx
      subst hx
      have hf := buffered_Write_facts impl s.2 fuel b r hw
      have ht := buffered_Write_transfersOnly impl s.2 fuel b r hw
      have hkeep : r.2.bufWriter.err = none → s.2.bufWriter.err = none := by
        intro h0
        by_contra hne
        exact hf.2.1 hne h0
      refine ⟨hf.2.2.1.trans hrt, hf.2.2.2.trans hwt, ?_, ?_, ?_, ?_⟩
      · intro h0
        show r.2.conn.readDeadline = NoDeadline
        rw [ht.1]; exact hz1 h0
      · intro h0
        show r.2.conn.writeDeadline = NoDeadline
        rw [ht.2.1]; exact hz2 h0
      · intro he
        show r.2.conn.writeDeadline = NoDeadline
        rw [ht.2.1]; exact hst (hkeep he)
      · refine explained_snoc hex _ (fun _ => ht.1) (by simp [Op.isRead]) (by simp [Op.isRead])
          (by simp [Op.isWriteOrFlush]) ?_ ?_
        · intro _ he
          show r.2.conn.writeDeadline = NoDeadline
          have he' : r.1.err = none := he
          rw [ht.2.1]
          exact hst (hkeep (hf.1 ▸ he'))
        · intro _ _
          exact Or.inr (Or.inr ht.2.1)
  | Flush =>
    simp only [NetBuffedReadWriter.call, Option.some.injEq] at hx
    subst hx
    have hf := buffered_Flush_facts impl s.2
    have hwd := buffered_Flush_writeDeadline impl s.2
    have hrd := buffered_Flush_readDeadline impl s.2
    refine ⟨hf.2.1.trans hrt, hf.2.2.trans hwt, ?_, ?_, ?_, ?_⟩
    · intro h0
      rw [hrd]; exact hz1 h0
    · intro h0
      rw [hwd, if_pos (hwt.trans h0)]
      exact hz2 h0
    · intro he
      have he' : (s.2.Flush impl).1 = none := hf.1.trans he
      rw [hwd, if_pos he']
      split
      · rename_i h0
        exact hz2 (hwt.symm.trans h0)
      · rfl
    · refine explained_snoc hex _ (fun _ => hrd) (by simp [Op.isRead]) (by simp [Op.isRead])
        (by simp [Op.isWriteOrFlush]) ?_ ?_
      · intro _ he
        have he' : (s.2.Flush impl).1 = none := he
        rw [hwd, if_pos he']
        split
        · rename_i h0
          exact hz2 (hwt.symm.trans h0)
        · rfl
      · intro _ he
        have he' : (s.2.Flush impl).1 ≠ none := he
        show (s.2.Flush impl).2.conn.writeDeadline = NoDeadline ∨
          (s.2.Flush impl).2.conn.writeDeadline = s.2.conn.now + wt ∨ _
        rw [hwd, if_neg he', hwt]
        by_cases h0 : wt = 0
        · rw [if_pos h0]; exact Or.inr (Or.inr rfl)
        · rw [if_neg h0]; exact Or.inr (Or.inl rfl)

theorem bufferedInv_runFrom {rt wt : Duration} (fuel : Nat) (ops : List Op) :
    ∀ (s t : List Event × NetBuffedReadWriter σ), BufferedInv rt wt s →
      NetBuffedReadWriter.runFrom impl fuel s ops = some t → BufferedInv rt wt t := by
  induction ops with
  | nil =>
    intro s t h hrun
    simp only [NetBuffedReadWriter.runFrom, Option.some.injEq] at hrun
    rw [← hrun]; exact h
  | cons op ops ih =>
    intro s t h hrun
    unfold NetBuffedReadWriter.runFrom at hrun
    rcases hc : s.2.call impl fuel op with _ | x
    · rw [hc] at hrun; simp at hrun
    · rw [hc] at hrun
      exact ih _ t (bufferedInv_step impl h fuel op x hc) hrun

theorem direct_Read_timeouts (rw : NetReadWriter σ) (len : Nat) :
    (rw.Read impl len).2.readTimeout = rw.readTimeout ∧
    (rw.Read impl len).2.writeTimeout = rw.writeTimeout := by
  by_cases h : rw.readTimeout = 0
  · rw [direct_Read_zero impl rw len h]; exact ⟨rfl, rfl⟩
  · by_cases hb : ((rw.conn.SetReadDeadline (rw.conn.now + rw.readTimeout)).Read impl len).1.err
        = none
    · rw [direct_Read_ok impl rw len h hb]; exact ⟨rfl, rfl⟩
    · rw [direct_Read_err impl rw len h hb]; exact ⟨rfl, rfl⟩

theorem direct_Write_timeouts (rw : NetReadWriter σ) (b : List Byte) :
    (rw.Write impl b).2.readTimeout = rw.readTimeout ∧
    (rw.Write impl b).2.writeTimeout = rw.writeTimeout := by
  by_cases h : rw.writeTimeout = 0
  · rw [direct_Write_zero impl rw b h]; exact ⟨rfl, rfl⟩
  · by_cases hb : ((rw.conn.SetWriteDeadline (rw.conn.now + rw.writeTimeout)).Write impl b).1.err
        = none
    · rw [direct_Write_ok impl rw b h hb]; exact ⟨rfl, rfl⟩
    · rw [direct_Write_err impl rw b h hb]; exact ⟨rfl, rfl⟩

theorem directInv_step {rt wt : Duration} {s : List Event × NetReadWriter σ}
    (h : DirectInv rt wt s) (op : Op) :
    DirectInv rt wt
      (s.1 ++ [{ op := op, start := s.2.conn.now, err := (s.2.call impl op).1 }],
       (s.2.call impl op).2) := by
  obtain ⟨hrt, hwt, hz1, hz2, hex⟩ := h
  cases op with
  | Read len =>
    have hf := direct_Read_timeouts impl s.2 len
    have hrd := direct_Read_readDeadline impl s.2 len
    have hwd := direct_Read_writeDeadline impl s.2 len
    refine ⟨hf.1.trans hrt, hf.2.trans hwt, ?_, ?_, ?_⟩
    · intro h0
      show (s.2.Read impl len).2.conn.readDeadline = NoDeadline
      rw [hrd, if_pos (hrt.trans h0)]
      exact hz1 h0
    · intro h0
      show (s.2.Read impl len).2.conn.writeDeadline = NoDeadline
      rw [hwd]; exact hz2 h0
    · refine explained_snoc hex _ (by simp [Op.isRead]) ?_ ?_ (fun _ => hwd) (by simp [Op.isWrite])
        (by simp [Op.isWrite])
      · intro _ he
        show (s.2.Read impl len).2.conn.readDeadline = NoDeadline
        have he' : (s.2.Read impl len).1.err = none := he
        rw [hrd, if_pos he']
        split
        · rename_i h0
          exact hz1 (hrt.symm.trans h0)
        · rfl
      · intro _ he
        have he' : (s.2.Read impl len).1.err ≠ none := he
        by_cases h0 : rt = 0
        · exact Or.inr (Or.inr (hrd.trans (if_pos (hrt.trans h0))))
        · have hne : s.2.readTimeout ≠ 0 := fun h => h0 (hrt.symm.trans h)
          refine Or.inr (Or.inl ?_)
          show (s.2.Read impl len).2.conn.readDeadline = s.2.conn.now + rt
          rw [hrd, if_neg hne, if_neg he', hrt]
  | Write b =>
    have hf := direct_Write_timeouts impl s.2 b
    have hwd := direct_Write_writeDeadline impl s.2 b
    have hrd := direct_Write_readDeadline impl s.2 b
    refine ⟨hf.1.trans hrt, hf.2.trans hwt, ?_, ?_, ?_⟩
    · intro h0
      show (s.2.Write impl b).2.conn.readDeadline = NoDeadline
      rw [hrd]; exact hz1 h0
    · intro h0
      show (s.2.Write impl b).2.conn.writeDeadline = NoDeadline
      rw [hwd, if_pos (hwt.trans h0)]
      exact hz2 h0
    · refine explained_snoc hex _ (fun _ => hrd) (by simp [Op.isRead]) (by simp [Op.isRead])
        (by simp [Op.isWrite]) ?_ ?_
      · intro _ he
        show (s.2.Write impl b).2.conn.writeDeadline = NoDeadline
        have he' : (s.2.Write impl b).1.err = none := he
        rw [hwd, if_pos he']
        split
        · rename_i h0
          exact hz2 (hwt.symm.trans h0)
        · rfl
      · intro _ he
        have he' : (s.2.Write impl b).1.err ≠ none := he
        by_cases h0 : wt = 0
        · exact Or.inr (Or.inr (hwd.trans (if_pos (hwt.trans h0))))
        · have hne : s.2.writeTimeout ≠ 0 := fun h => h0 (hwt.symm.trans h)
          refine Or.inr (Or.inl ?_)
          show (s.2.Write impl b).2.conn.writeDeadline = s.2.conn.now + wt
          rw [hwd, if_neg hne, if_neg he', hwt]
  | Flush =>
    exact ⟨hrt, hwt, hz1, hz2,
      explained_snoc hex _ (fun _ => rfl) (by simp [Op.isRead]) (by simp [Op.isRead]) (fun _ => rfl)
        (by simp [Op.isWrite]) (by simp [Op.isWrite])⟩

theorem directInv_runFrom {rt wt : Duration} (ops : List Op) :
    ∀ (s : List Event × NetReadWriter σ), DirectInv rt wt s →
      DirectInv rt wt (NetReadWriter.runFrom impl s ops) := by
  induction ops with
  | nil => intro s h; exact h
  | cons op ops ih =>
    intro s h
    unfold NetReadWriter.runFrom
    exact ih _ (directInv_step impl h op)

theorem explained_init (c : Conn σ) (rt wt : Duration) (wdir : Op → Bool)
    (hr : c.readDeadline = NoDeadline) (hw : c.writeDeadline = NoDeadline) :
    Explained [] c rt wt wdir :=
  ⟨Or.inl hr, Or.inl hw, fun _ _ _ => hr, fun _ _ _ => hw⟩

/-- C10 (amended). Start from a connection whose read and write deadlines are
both NoDeadline and make any finite sequence of Read, Write and Flush calls on
one new wrapper with any fixed timeouts.  Afterwards each direction's deadline
is NoDeadline or the armed value (clock at the call plus timeout) left by a call
of that direction that returned an error, and it is NoDeadline whenever the most
recent call of that direction returned nil.  For the buffered wrapper the write
direction consists of Write and Flush, and its calls do return on every
connection that meets the io.Writer contract; for the direct wrapper the write
direction consists of Write only: the direct Flush is a no-op that belongs to
no direction. -/
theorem reachable_deadlines_explained (c : Conn σ) (rt wt : Duration) (ops : List Op)
    (fuel : Nat) (hr : c.readDeadline = NoDeadline) (hw : c.writeDeadline = NoDeadline) :
    (∀ t, (NewNetReadWriter c rt wt).run impl fuel ops = some t →
      Explained t.1 t.2.conn rt wt Op.isWriteOrFlush) ∧
    (WriterContract impl →
      ((NewNetReadWriter c rt wt).run impl (fuel + 3) ops).isSome = true) ∧
    Explained ((NewSingleReadWriter c rt wt).run impl ops).1
      ((NewSingleReadWriter c rt wt).run impl ops).2.conn rt wt Op.isWrite := by
  refine ⟨?_, fun hct => buffered_runFrom_returns impl hct fuel ops _, ?_⟩
  · intro t ht
    have h0 : BufferedInv rt wt (([] : List Event), NewNetReadWriter c rt wt) :=
      ⟨rfl, rfl, fun _ => hr, fun _ => hw, fun _ => hw, explained_init c rt wt _ hr hw⟩
    exact (bufferedInv_runFrom impl fuel ops _ t h0 ht).2.2.2.2.2
  · have h0 : DirectInv rt wt (([] : List Event), NewSingleReadWriter c rt wt) :=
      ⟨rfl, rfl, fun _ => hr, fun _ => hw, explained_init c rt wt _ hr hw⟩
    exact (directInv_runFrom impl ops _ h0).2.2.2.2

/-- C10, counterexample.  A direct wrapper with write timeout 5 at clock 100 over
a connection holding no deadline, whose every call fails: after Write then
Flush, the most recent call among Write and Flush is the Flush, it returned nil,
and the write deadline is still the armed value 105, not NoDeadline. -/
theorem direct_flush_nil_deadline_armed :
    lastIn Op.isWriteOrFlush
        ((NewSingleReadWriter (fakeConn (some GoError.ErrTimeout) NoDeadline NoDeadline) 0 5).run
          fakeImpl [Op.Write [1], Op.Flush]).1
      = some { op := Op.Flush, start := 101, err := none } ∧
    ((NewSingleReadWriter (fakeConn (some GoError.ErrTimeout) NoDeadline NoDeadline) 0 5).run
        fakeImpl [Op.Write [1], Op.Flush]).2.conn.writeDeadline = 105 ∧
    (105 : Time) ≠ NoDeadline := by
  decide

theorem fakeImpl_writerContract : WriterContract fakeImpl := by
  intro now dl s p h
  have hs : s = none := h
  subst hs
  exact Nat.le_refl _

/-- C10, witness: Read, Write, Flush on both
wrappers with timeouts 50 and 60 over a fake connection whose every call
fails. -/
theorem reachable_deadlines_explained_witness :
    ((fakeConn (some GoError.ErrTimeout) NoDeadline NoDeadline).readDeadline = NoDeadline ∧
     (fakeConn (some GoError.ErrTimeout) NoDeadline NoDeadline).writeDeadline = NoDeadline) ∧
    (∀ t, (NewNetReadWriter (fakeConn (some GoError.ErrTimeout) NoDeadline NoDeadline) 50 60).run
        fakeImpl 3 [Op.Read 3, Op.Write [1], Op.Flush] = some t →
      Explained t.1 t.2.conn 50 60 Op.isWriteOrFlush) ∧
    ((NewNetReadWriter (fakeConn (some GoError.ErrTimeout) NoDeadline NoDeadline) 50 60).run
        fakeImpl (3 + 3) [Op.Read 3, Op.Write [1], Op.Flush]).isSome = true ∧
    Explained
      ((NewSingleReadWriter (fakeConn (some GoError.ErrTimeout) NoDeadline NoDeadline) 50 60).run
        fakeImpl [Op.Read 3, Op.Write [1], Op.Flush]).1
      ((NewSingleReadWriter (fakeConn (some GoError.ErrTimeout) NoDeadline NoDeadline) 50 60).run
        fakeImpl [Op.Read 3, Op.Write [1], Op.Flush]).2.conn 50 60 Op.isWrite :=
  ⟨⟨rfl, rfl⟩,
   (reachable_deadlines_explained fakeImpl
      (fakeConn (some GoError.ErrTimeout) NoDeadline NoDeadline) 50 60
      [Op.Read 3, Op.Write [1], Op.Flush] 3 rfl rfl).1,
   (reachable_deadlines_explained fakeImpl
      (fakeConn (some GoError.ErrTimeout) NoDeadline NoDeadline) 50 60
      [Op.Read 3, Op.Write [1], Op.Flush] 3 rfl rfl).2.1 fakeImpl_writerContract,
   (reachable_deadlines_explained fakeImpl
      (fakeConn (some GoError.ErrTimeout) NoDeadline NoDeadline) 50 60
      [Op.Read 3, Op.Write [1], Op.Flush] 3 rfl rfl).2.2⟩

end Reachable

/-! ## Round trip over a loopback connection -/

section RoundTrip

variable (policy : Nat → Nat → Nat)

theorem readGrant_le (avail len : Nat) :
    readGrant policy avail len ≤ avail ∧ readGrant policy avail len ≤ len := by
  unfold readGrant
  split
  · exact ⟨Nat.zero_le _, Nat.zero_le _⟩
  · rename_i h
    have hpos : 0 < min avail len := Nat.pos_of_ne_zero h
    have := Nat.mod_lt (policy avail len) hpos
    have h1 := Nat.min_le_left avail len
    have h2 := Nat.min_le_right avail len
    omega

theorem readGrant_pos (avail len : Nat) (ha : 0 < avail) (hl : 0 < len) :
    0 < readGrant policy avail len := by
  unfold readGrant
  have : min avail len ≠ 0 := by
    have := Nat.lt_min.mpr ⟨ha, hl⟩
    omega
  rw [if_neg this]
  exact Nat.succ_pos _

/-- A loopback Read into a non-empty buffer with bytes queued: no error, a
non-empty front part of the queue comes back, the rest stays queued. -/
theorem conn_Read_loopback (c : Conn (List Byte)) (len : Nat) (hlen : 0 < len)
    (hq : c.sock ≠ []) :
    (c.Read (loopback policy) len).1.err = none ∧
    (c.Read (loopback policy) len).1.data ≠ [] ∧
    (c.Read (loopback policy) len).1.data ++ (c.Read (loopback policy) len).2.sock = c.sock := by
  have hg := readGrant_le policy c.sock.length len
  have hp := readGrant_pos policy c.sock.length len (List.length_pos.mpr hq) hlen
  have hd : (c.Read (loopback policy) len).1.data
      = c.sock.take (readGrant policy c.sock.length len) := by
    simp [Conn.Read, loopback, List.take_take, hg.2]
  refine ⟨rfl, ?_, ?_⟩
  · rw [hd]
    intro h
    have := congrArg List.length h
    simp only [List.length_take, List.length_nil] at this
    omega
  · rw [hd]
    exact List.take_append_drop _ _

/-- A bufio Read into a non-empty buffer over a loopback connection, with no
stored error and a byte pending or queued: no error, at least one byte comes
back, and the bytes returned followed by those still pending and queued are the
ones pending and queued before. -/
theorem bufReader_Read_loopback (r : BufReader) (c : Conn (List Byte)) (len : Nat)
    (hlen : 0 < len) (herr : r.err = none) (hne : r.pending ++ c.sock ≠ []) :
    (r.Read (loopback policy) c len).1.err = none ∧
    (r.Read (loopback policy) c len).1.data ≠ [] ∧
    (r.Read (loopback policy) c len).1.data ++
        ((r.Read (loopback policy) c len).2.1.pending ++ (r.Read (loopback policy) c len).2.2.sock)
      = r.pending ++ c.sock ∧
    (r.Read (loopback policy) c len).2.1.err = none := by
  unfold BufReader.Read
  rw [if_neg (Nat.pos_iff_ne_zero.mp hlen)]
  by_cases hp : r.pending.length = 0
  · have hnil : r.pending = [] := List.length_eq_zero.mp hp
    have hq : c.sock ≠ [] := by simpa [hnil] using hne
    rw [if_pos hp, herr]
    dsimp only
    by_cases hs : r.size ≤ len
    · rw [if_pos hs]
      obtain ⟨h1, h2, h3⟩ := conn_Read_loopback policy c len hlen hq
      exact ⟨h1, h2, by simpa [hnil] using h3, rfl⟩
    · rw [if_neg hs]
      have hsz : 0 < r.size := by omega
      obtain ⟨h1, h2, h3⟩ := conn_Read_loopback policy c r.size hsz hq
      have hl : (c.Read (loopback policy) r.size).1.data.length ≠ 0 := by
        intro h0; exact h2 (List.length_eq_zero.mp h0)
      rw [if_neg hl]
      refine ⟨rfl, ?_, ?_, h1⟩
      · intro h0
        have := congrArg List.length h0
        simp only [List.length_take, List.length_nil] at this
        omega
      · dsimp only
        rw [hnil, List.nil_append, ← List.append_assoc, List.take_append_drop]
        exact h3
  · rw [if_neg hp]
    dsimp only
    refine ⟨rfl, ?_, ?_, herr⟩
    · intro h0
      have := congrArg List.length h0
      simp only [List.length_take, List.length_nil] at this
      omega
    · rw [← List.append_assoc, List.take_append_drop]

/-- Read on a buffered wrapper over a loopback connection, as bufReader_Read_loopback. -/
theorem buffered_Read_loopback (nb : NetBuffedReadWriter (List Byte)) (len : Nat)
    (hlen : 0 < len) (herr : nb.bufReader.err = none)
    (hne : nb.bufReader.pending ++ nb.conn.sock ≠ []) :
    (nb.Read (loopback policy) len).1.err = none ∧
    (nb.Read (loopback policy) len).1.data ≠ [] ∧
    (nb.Read (loopback policy) len).1.data ++
        ((nb.Read (loopback policy) len).2.bufReader.pending ++
          (nb.Read (loopback policy) len).2.conn.sock)
      = nb.bufReader.pending ++ nb.conn.sock ∧
    (nb.Read (loopback policy) len).2.bufReader.err = none := by
  by_cases h : nb.readTimeout = 0
  · rw [buffered_Read_zero _ nb len h]
    exact bufReader_Read_loopback policy nb.bufReader nb.conn len hlen herr hne
  · have hb := bufReader_Read_loopback policy nb.bufReader nb.armRead.conn len hlen herr hne
    rw [buffered_Read_ok _ nb len h hb.1]
    exact hb

/-- Read on a direct wrapper over a loopback connection with bytes queued. -/
theorem direct_Read_loopback (rw : NetReadWriter (List Byte)) (len : Nat)
    (hlen : 0 < len) (hne : rw.conn.sock ≠ []) :
    (rw.Read (loopback policy) len).1.err = none ∧
    (rw.Read (loopback policy) len).1.data ≠ [] ∧
    (rw.Read (loopback policy) len).1.data ++ (rw.Read (loopback policy) len).2.conn.sock
      = rw.conn.sock := by
  by_cases h : rw.readTimeout = 0
  · rw [direct_Read_zero _ rw len h]
    exact conn_Read_loopback policy rw.conn len hlen hne
  · have hb := conn_Read_loopback policy
      (rw.conn.SetReadDeadline (rw.conn.now + rw.readTimeout)) len hlen hne
    rw [direct_Read_ok _ rw len h hb.1]
    exact hb

/-- Reading back from a buffered wrapper over a loopback connection: with no
stored read error, as many non-empty buffers as bytes pending and queued bring
back exactly those bytes, in order. -/
theorem buffered_readUntil_loopback (lens : List Nat) :
    ∀ (nb : NetBuffedReadWriter (List Byte)) (rest : List Byte),
      nb.bufReader.err = none → nb.bufReader.pending ++ nb.conn.sock = rest →
      (∀ l ∈ lens, 0 < l) → rest.length ≤ lens.length →
      (NetBuffedReadWriter.readUntil (loopback policy) rest.length nb lens).1 = rest := by
  induction lens with
  | nil =>
    intro nb rest _ _ _ hlen
    have : rest = [] := List.length_eq_zero.mp (Nat.le_zero.mp hlen)
    simp [NetBuffedReadWriter.readUntil, this]
  | cons len lens ih =>
    intro nb rest herr hrest hpos hlen
    unfold NetBuffedReadWriter.readUntil
    by_cases h0 : rest.length = 0
    · rw [if_pos h0]
      exact (List.length_eq_zero.mp h0).symm
    · rw [if_neg h0]
      have hne : nb.bufReader.pending ++ nb.conn.sock ≠ [] := by
        rw [hrest]; intro h; exact h0 (by rw [h]; rfl)
      obtain ⟨h1, h2, h3, h4⟩ := buffered_Read_loopback policy nb len
        (hpos len (List.mem_cons_self _ _)) herr hne
      rw [if_pos h1]
      dsimp only
      have hd : 0 < (nb.Read (loopback policy) len).1.data.length := List.length_pos.mpr h2
      have hsplit : rest.length - (nb.Read (loopback policy) len).1.data.length
          = ((nb.Read (loopback policy) len).2.bufReader.pending ++
              (nb.Read (loopback policy) len).2.conn.sock).length := by
        have := congrArg List.length (h3.trans hrest)
        rw [List.length_append] at this
        omega
      rw [hsplit, ih _ _ h4 rfl (fun l hl => hpos l (List.mem_cons_of_mem _ hl)) ?_]
      · exact h3.trans hrest
      · rw [← hsplit]
        simp only [List.length_cons] at hlen
        omega

/-- Reading back from a direct wrapper over a loopback connection. -/
theorem direct_readUntil_loopback (lens : List Nat) :
    ∀ (rw : NetReadWriter (List Byte)) (rest : List Byte),
      rw.conn.sock = rest → (∀ l ∈ lens, 0 < l) → rest.length ≤ lens.length →
      (NetReadWriter.readUntil (loopback policy) rest.length rw lens).1 = rest := by
  induction lens with
  | nil =>
    intro rw rest _ _ hlen
    have : rest = [] := List.length_eq_zero.mp (Nat.le_zero.mp hlen)
    simp [NetReadWriter.readUntil, this]
  | cons len lens ih =>
    intro rw rest hrest hpos hlen
    unfold NetReadWriter.readUntil
    by_cases h0 : rest.length = 0
    · rw [if_pos h0]
      exact (List.length_eq_zero.mp h0).symm
    · rw [if_neg h0]
      have hne : rw.conn.sock ≠ [] := by
        rw [hrest]; intro h; exact h0 (by rw [h]; rfl)
      obtain ⟨h1, h2, h3⟩ := direct_Read_loopback policy rw len
        (hpos len (List.mem_cons_self _ _)) hne
      rw [if_pos h1]
      dsimp only
      have hd : 0 < (rw.Read (loopback policy) len).1.data.length := List.length_pos.mpr h2
      have hsplit : rest.length - (rw.Read (loopback policy) len).1.data.length
          = (rw.Read (loopback policy) len).2.conn.sock.length := by
        have := congrArg List.length (h3.trans hrest)
        rw [List.length_append] at this
        omega
      rw [hsplit, ih _ _ rfl (fun l hl => hpos l (List.mem_cons_of_mem _ hl)) ?_]
      · exact h3.trans hrest
      · rw [← hsplit]
        simp only [List.length_cons] at hlen
        omega

theorem conn_Write_loopback (c : Conn (List Byte)) (p : List Byte) :
    (c.Write (loopback policy) p).1 = { n := p.length, err := none } ∧
    (c.Write (loopback policy) p).2.sock = c.sock ++ p :=
  ⟨conn_Write_acceptsAll _ (loopback_acceptsAll policy) c p, rfl⟩

theorem bufWriter_Flush_loopback (w : BufWriter) (c : Conn (List Byte)) (herr : w.err = none) :
    (w.Flush (loopback policy) c).1 = none ∧
    (w.Flush (loopback policy) c).2.2.sock = c.sock ++ w.buf := by
  refine ⟨(bufWriter_Flush_acceptsAll _ (loopback_acceptsAll policy) w c herr).1, ?_⟩
  unfold BufWriter.Flush
  rw [herr]
  by_cases hb : w.buf.length = 0
  · rw [if_pos hb]
    simp [List.length_eq_zero.mp hb]
  · rw [if_neg hb]
    simp only [(conn_Write_loopback policy c w.buf).1, lt_irrefl, false_and, if_false]
    exact (conn_Write_loopback policy c w.buf).2

theorem buffered_Flush_loopback (nb : NetBuffedReadWriter (List Byte))
    (herr : nb.bufWriter.err = none) :
    (nb.Flush (loopback policy)).1 = none ∧
    (nb.Flush (loopback policy)).2.conn.sock = nb.conn.sock ++ nb.bufWriter.buf ∧
    (nb.Flush (loopback policy)).2.bufReader = nb.bufReader := by
  by_cases h : nb.writeTimeout = 0
  · rw [buffered_Flush_zero _ nb h]
    exact ⟨(bufWriter_Flush_loopback policy nb.bufWriter nb.conn herr).1,
      (bufWriter_Flush_loopback policy nb.bufWriter nb.conn herr).2, rfl⟩
  · have hf := bufWriter_Flush_loopback policy nb.bufWriter nb.armWrite.conn herr
    rw [buffered_Flush_ok _ nb h hf.1]
    exact ⟨hf.1, hf.2, rfl⟩

theorem direct_Write_loopback (rw : NetReadWriter (List Byte)) (b : List Byte) :
    (rw.Write (loopback policy) b).1 = { n := b.length, err := none } ∧
    (rw.Write (loopback policy) b).2.conn.sock = rw.conn.sock ++ b ∧
    (rw.Write (loopback policy) b).2.readTimeout = rw.readTimeout := by
  by_cases h : rw.writeTimeout = 0
  · rw [direct_Write_zero _ rw b h]
    exact ⟨(conn_Write_loopback policy rw.conn b).1, rfl, rfl⟩
  · have hw := conn_Write_loopback policy
      (rw.conn.SetWriteDeadline (rw.conn.now + rw.writeTimeout)) b
    rw [direct_Write_ok _ rw b h (by rw [hw.1])]
    exact ⟨hw.1, rfl, rfl⟩

/-- Write then Flush on a new buffered wrapper over a loopback connection with
an empty queue: both return nil, the queue then holds exactly b, and the
bufio.Reader is still new. -/
theorem buffered_Write_Flush_loopback (c : Conn (List Byte)) (rt wt : Duration)
    (b : List Byte) (fuel : Nat) (hc : c.sock = []) :
    ∃ nb, (NewNetReadWriter c rt wt).Write (loopback policy) (fuel + 2) b
        = some ({ n := b.length, err := none }, nb) ∧
      (nb.Flush (loopback policy)).1 = none ∧
      (nb.Flush (loopback policy)).2.conn.sock = b ∧
      (nb.Flush (loopback policy)).2.bufReader = NewReader := by
  by_cases hb : b.length ≤ defaultBufSize
  · have hw : (NewNetReadWriter c rt wt).Write (loopback policy) (fuel + 2) b
        = some ({ n := b.length, err := none }, staged c rt wt b) := by
      unfold NetBuffedReadWriter.Write BufWriter.Write
      show Option.map _ (BufWriter.writeLoop _ (fuel + 1 + 1) NewWriter c b 0) = _
      rw [bufWriter_writeLoop_fits _ (fuel + 1) NewWriter c b 0
        (by simpa [BufWriter.Available, NewWriter] using hb) rfl]
      simp [NewWriter, NewNetReadWriter, staged]
    have hf := buffered_Flush_loopback policy (staged c rt wt b) rfl
    refine ⟨_, hw, hf.1, hf.2.1.trans ?_, hf.2.2⟩
    show c.sock ++ b = b
    rw [hc, List.nil_append]
  · have hw : (NewNetReadWriter c rt wt).Write (loopback policy) (fuel + 2) b
        = some ({ n := b.length, err := none },
            { NewNetReadWriter c rt wt with conn := (c.Write (loopback policy) b).2 }) := by
      unfold NetBuffedReadWriter.Write
      show Option.map _ (BufWriter.Write _ (fuel + 2) NewWriter c b) = _
      rw [bufWriter_Write_new_large _ (loopback_acceptsAll policy) fuel c b (not_le.mp hb)]
      simp [NewNetReadWriter]
    have hf := buffered_Flush_loopback policy
      { NewNetReadWriter c rt wt with conn := (c.Write (loopback policy) b).2 } rfl
    refine ⟨_, hw, hf.1, hf.2.1.trans ?_, hf.2.2⟩
    show (c.sock ++ b) ++ [] = b
    rw [hc, List.nil_append, List.append_nil]

/-- C6. Round trip over a loopback connection (an initially empty queue: Write
appends all its bytes, Read hands over a non-empty front part of any size the
connection likes, no call fails).  For both wrappers, every pair of timeouts and
every byte sequence b: Write(b) returns (len(b), nil), for the buffered wrapper
Flush returns nil, and then calling Read with non-empty buffers of any lengths
until len(b) bytes have come back yields exactly b; len(b) calls are always
enough. -/
theorem loopback_round_trip (c : Conn (List Byte)) (rt wt : Duration) (b : List Byte)
    (fuel : Nat) (lens : List Nat) (hc : c.sock = []) (hpos : ∀ l ∈ lens, 0 < l)
    (hlen : b.length ≤ lens.length) :
    (∃ nb, (NewNetReadWriter c rt wt).Write (loopback policy) (fuel + 2) b
        = some ({ n := b.length, err := none }, nb) ∧
      (nb.Flush (loopback policy)).1 = none ∧
      ((nb.Flush (loopback policy)).2.readUntil (loopback policy) b.length lens).1 = b) ∧
    ((NewSingleReadWriter c rt wt).Write (loopback policy) b).1
        = { n := b.length, err := none } ∧
    (((NewSingleReadWriter c rt wt).Write (loopback policy) b).2.readUntil (loopback policy)
        b.length lens).1 = b := by
  refine ⟨?_, ?_, ?_⟩
  · obtain ⟨nb, hw, hf, hs, hr⟩ :=
      buffered_Write_Flush_loopback policy c rt wt b fuel hc
    refine ⟨nb, hw, hf, ?_⟩
    exact buffered_readUntil_loopback policy lens _ b (by rw [hr]; rfl)
      (by rw [hr, hs]; rfl) hpos hlen
  · exact (direct_Write_loopback policy _ b).1
  · refine direct_readUntil_loopback policy lens _ b ?_ hpos hlen
    rw [(direct_Write_loopback policy _ b).2.1]
    show c.sock ++ b = b
    rw [hc, List.nil_append]

/-- C6, witness: three bytes, timeouts 50 and 60, a loopback
connection that hands over one byte per Read, buffers of length 2. -/
theorem loopback_round_trip_witness :
    ((loopConn 0 0).sock = [] ∧ (∀ l ∈ [2, 2, 2], 0 < l) ∧ [1, 2, 3].length ≤ [2, 2, 2].length) ∧
    (∃ nb, (NewNetReadWriter (loopConn 0 0) 50 60).Write (loopback fun _ _ => 0) (0 + 2) [1, 2, 3]
        = some ({ n := [1, 2, 3].length, err := none }, nb) ∧
      (nb.Flush (loopback fun _ _ => 0)).1 = none ∧
      ((nb.Flush (loopback fun _ _ => 0)).2.readUntil (loopback fun _ _ => 0)
        [1, 2, 3].length [2, 2, 2]).1 = [1, 2, 3]) ∧
    ((NewSingleReadWriter (loopConn 0 0) 50 60).Write (loopback fun _ _ => 0) [1, 2, 3]).1
        = { n := [1, 2, 3].length, err := none } ∧
    (((NewSingleReadWriter (loopConn 0 0) 50 60).Write (loopback fun _ _ => 0)
        [1, 2, 3]).2.readUntil (loopback fun _ _ => 0) [1, 2, 3].length [2, 2, 2]).1
      = [1, 2, 3] :=
  ⟨⟨rfl, by decide, by decide⟩,
   loopback_round_trip (fun _ _ => 0) (loopConn 0 0) 50 60 [1, 2, 3] 0 [2, 2, 2] rfl
      (by decide) (by decide)⟩

end RoundTrip

end Lib
